import Mathlib

/-!
Verification development for the Facebook-monitoring Telegram bot
(`telegram_bot.py`).  The Python functions the claims concern are embedded
as executable Lean definitions.  Upstream HTTP calls, the
`datetime.strptime` library parser and `str.format` template rendering are
passed in as function parameters, since their bodies are library code
outside the repository; the code only branches on their results.
Timestamps are modelled as integers (epoch seconds): the code only ever
compares parsed timezone-aware datetimes, so any linearly ordered carrier
is faithful.  JSON dicts keyed by strings are modelled as association
lists (Python dicts preserve insertion order); JSON id-list fields that the
code only ever reads into Python sets and writes back sorted are modelled
as finite sets of strings.
-/

namespace TelegramBot

/-- Equality decision for `Option` that avoids the recursor-based proof of
the derived instance, so that closed propositions over quotient-valued
payloads (finite sets) evaluate. -/
instance (priority := 2000) optionDecEqFlat {α : Type} [DecidableEq α] :
    DecidableEq (Option α) := fun a b =>
  match a, b with
  | none, none => isTrue rfl
  | some x, some y => decidable_of_iff (x = y) Option.some_inj.symm
  | none, some _ => isFalse (fun h => Option.noConfusion h)
  | some _, none => isFalse (fun h => Option.noConfusion h)

/-- Association-list lookup, modelling Python `dict.get(k)` and
`k in dict` on the JSON state objects. -/
def assoc_find {β : Type} (k : String) : List (String × β) → Option β
  | [] => none
  | (k', v) :: rest => if k' = k then some v else assoc_find k rest

/-- Pointwise update of one existing key of a dict, modelling
`d[k] = v` / `d[k].update(...)` for a key already present. -/
def set_assoc {β : Type} (k : String) (f : β → β) : List (String × β) → List (String × β)
  | [] => []
  | (k', v) :: rest => if k' = k then (k', f v) :: rest else (k', v) :: set_assoc k f rest

/-- Stored record of one tracked UID (`user["uids"][uid]`), with the
defaults installed by `add_uid` (lines 163-186). -/
structure UidMeta where
  label : String := ""
  status : String := "unknown"
  summary : String := ""
  name : Option String := none
  last_checked : Option String := none
  live_video : Bool := false
deriving DecidableEq

/-- Observation returned by `fetch_uid_status` (lines 512-577).  Every
return path of that function sets `status`, `summary` and `checked_at`;
`name` and `live_video` are present only on the success path, so they are
optional / defaulted exactly as `res.get("name")` and
`res.get("live_video", False)` read them. -/
structure UidRes where
  status : String
  summary : String
  name : Option String := none
  checked_at : String := ""
  live_video : Bool := false
deriving DecidableEq

/-- Notification emitted by the batch check loop `check_all_uids`
(lines 624-637).  The chat-transport formatting of the message text is out
of scope; each notification is kept as a structured record. -/
inductive Note
  | tokenError (summary : String)
  | change (uid : String) (old_status new_status : String)
deriving DecidableEq

/-- Notification is the token-error notification of line 626. -/
def Note.isTok : Note → Bool
  | Note.tokenError _ => true
  | _ => false

/-- Notification is the status-change notification of lines 628-637. -/
def Note.isChange : Note → Bool
  | Note.change _ _ _ => true
  | _ => false

/-- Per-tenant inner loop of `check_all_uids` (lines 620-637): walk the
tenant's UID map in order, record every observation in `user_updates`,
emit one token-error notification and stop at the first `token_error`
observation, otherwise emit a change notification when the observed
`(status, summary)` pair differs from the stored one.  The upstream call
`fetch_uid_status` is the `fetch` parameter. -/
def check_user_uids (fetch : String → UidRes) :
    List (String × UidMeta) → List (String × UidRes) × List Note
  | [] => ([], [])
  | (uid, meta) :: rest =>
    let res := fetch uid
    if res.status = "token_error" then
      ([(uid, res)], [Note.tokenError res.summary])
    else
      let rest_r := check_user_uids fetch rest
      ((uid, res) :: rest_r.1,
        (if meta.status ≠ res.status ∨ meta.summary ≠ res.summary then
          [Note.change uid meta.status res.status]
        else []) ++ rest_r.2)

/-- The `meta.update({...})` of `apply_uid_results` (lines 590-598):
`name` is `res.get("name") or meta.get("name")` (Python `or`, so an absent
or empty observed name keeps the stored one), `last_checked` is
`res.get("checked_at") or now_iso()`. -/
def update_meta (now : String) (res : UidRes) (m : UidMeta) : UidMeta :=
  { m with
    status := res.status,
    summary := res.summary,
    name := (match res.name with
             | some n => if n = "" then m.name else some n
             | none => m.name),
    last_checked := some (if res.checked_at = "" then now else res.checked_at),
    live_video := res.live_video }

/-- One iteration of the merge loop of `apply_uid_results` (lines
584-600): a result whose UID is no longer stored is skipped, otherwise the
stored record is updated and the `changed` flag is raised when the
`(status, summary)` pair moved. -/
def apply_step (now : String) (acc : List (String × UidMeta) × Bool)
    (ur : String × UidRes) : List (String × UidMeta) × Bool :=
  match assoc_find ur.1 acc.1 with
  | none => acc
  | some m =>
    (set_assoc ur.1 (fun _ => update_meta now ur.2 m) acc.1,
     acc.2 || !(m.status == ur.2.status && m.summary == ur.2.summary))

/-- Merge of a batch of UID observations into the tenant's stored UID map,
`apply_uid_results` (lines 580-602).  Returns the new map together with
the `changed` flag that decides whether `_write_state_locked` (the
persisted disk write) runs.  The surrounding `state_lock` critical section
and `ensure_user` call do not affect the per-UID merge and are elided. -/
def apply_uid_results (now : String) (results : List (String × UidRes))
    (uids0 : List (String × UidMeta)) : List (String × UidMeta) × Bool :=
  results.foldl (apply_step now) (uids0, false)

/-- Cursor record stored per monitored post,
`user["pages"][page_id]["posts"][post_id]` (created at line 397 by
`watch_post`).  `last_comment_time` holds the already-parsed instant of
the stored ISO string (`datetime.fromisoformat(last_time_stored)` at line
731, `None` for a null/absent value); `last_comment_ids` is the JSON list
the code only ever reads into a Python set (line 727-728) and writes back
sorted (line 820), so it is modelled as a finite set. -/
structure PostMeta where
  last_comment_time : Option Int := none
  last_comment_id : Option String := none
  last_comment_ids : Finset String := ∅
deriving DecidableEq

/-- The effective stored id set `last_ids` built at lines 725-730: the
truthy elements of `last_comment_ids` together with `last_comment_id` when
that is truthy (Python `filter(None, stored_ids)` and
`if last_id_stored`). -/
def last_ids (meta : PostMeta) : Finset String :=
  (meta.last_comment_ids.erase "") ∪
    (match meta.last_comment_id with
     | some i => if i = "" then ∅ else {i}
     | none => ∅)

/-- Wrapper `parse_fb_time` (lines 99-105): an empty value is `None`, and
a `ValueError` from the library parse (`datetime.strptime(value,
"%Y-%m-%dT%H:%M:%S%z")`, the `strptime` parameter here) is `None`. -/
def parse_fb_time (strptime : String → Option Int) (value : String) : Option Int :=
  if value = "" then none else strptime value

/-- Fetched comment object (`{id, message, created_time, from{id,name}}`,
the fields requested at line 699).  Absent `message` reads as `""`
(line 749 `comment.get("message") or ""`), absent `created_time` reads as
`""` (line 736), absent `id` / `from` fields read as `None`. -/
structure Comment where
  id : Option String := none
  message : String := ""
  created_time : String := ""
  from_id : Option String := none
  from_name : Option String := none
deriving DecidableEq

/-- Outcome of classifying one fetched comment against the stored cursor. -/
inductive ItemClass
  | noTime
  | dup
  | new
deriving DecidableEq

/-- Classification of one comment against the stored cursor, i.e. the
three `continue` guards of `process_page_posts` (lines 736-748): skip when
the creation time does not parse; skip when it is before the stored time;
skip when it equals the stored time and the comment id is truthy and
already in `last_ids`; otherwise the comment is new. -/
def classify (strptime : String → Option Int) (last_dt : Option Int)
    (lids : Finset String) (c : Comment) : ItemClass :=
  match parse_fb_time strptime c.created_time with
  | none => ItemClass.noTime
  | some t =>
    match last_dt with
    | none => ItemClass.new
    | some d =>
      if t < d then ItemClass.dup
      else
        match c.id with
        | some i => if t = d ∧ i ≠ "" ∧ i ∈ lids then ItemClass.dup else ItemClass.new
        | none => ItemClass.new

/-- Classification rule as the specification words it: `created_at <
last_seen_at` is a duplicate, `created_at == last_seen_at` with the item
id in `last_seen_ids` is a duplicate, anything else is new, and an item
without a parseable creation time is skipped.  Written from the spec for
comparison with `classify`. -/
def claim_classify (last_seen_at : Option Int) (last_seen_ids : Finset String)
    (created : Option Int) (item_id : Option String) : ItemClass :=
  match created with
  | none => ItemClass.noTime
  | some t =>
    match last_seen_at with
    | none => ItemClass.new
    | some d =>
      if t < d then ItemClass.dup
      else
        match item_id with
        | some i => if t = d ∧ i ∈ last_seen_ids then ItemClass.dup else ItemClass.new
        | none => ItemClass.new

/-- The five moderation actions of lines 753-796. -/
inductive ActionKind
  | delete
  | hide
  | like
  | block
  | reply
deriving DecidableEq

/-- One reported action outcome (`actions_taken` entry): which action ran,
whether the upstream call succeeded, and its detail string. -/
structure ActionResult where
  kind : ActionKind
  ok : Bool
  detail : String
deriving DecidableEq

/-- Python truthiness of an optional string field such as `actor_id`. -/
def idTruthy : Option String → Bool
  | some i => i != ""
  | none => false

/-- Keyword match `comment_matches` (lines 649-653): empty text never
matches; otherwise any truthy keyword contained in the lowercased text. -/
def startsWithList : List Char → List Char → Bool
  | _, [] => true
  | [], _ :: _ => false
  | a :: as, b :: bs => a == b && startsWithList as bs

/-- Substring containment on character lists (Python `needle in hay`). -/
def hasSubstr : List Char → List Char → Bool
  | [], needle => startsWithList [] needle
  | h :: t, needle => startsWithList (h :: t) needle || hasSubstr t needle

/-- See `comment_matches` in the source (lines 649-653).  Lowercasing
`text.lower()` is applied per character. -/
def comment_matches (text : String) (keywords : List String) : Bool :=
  if text = "" then false
  else keywords.any (fun k => k != "" && hasSubstr (text.toList.map Char.toLower) k.toList)

/-- Moderation policy `page["auto"]` with the defaults installed by
`add_page` (lines 280-298). -/
structure AutoCfg where
  like : Bool := true
  hide_keywords : List String := []
  delete_keywords : List String := []
  block_keywords : List String := []
  message_template : String := ""
deriving DecidableEq

/-- The fixed action chain run on one new comment (lines 753-796).  The
`net` parameter is the outcome of `fb_request` for each endpoint; `render`
is `template.format(name=...)`, `none` meaning the `IndexError / KeyError
/ ValueError` branch.  `deleted` is true exactly when the delete call ran
and succeeded; hide and like are guarded by `not deleted`; block and the
template reply are guarded only by their own conditions. -/
def run_actions (net : ActionKind → Bool × String)
    (render : String → String → Option String) (auto : AutoCfg) (c : Comment) :
    List ActionResult :=
  let text := c.message
  let deleted := comment_matches text auto.delete_keywords && (net ActionKind.delete).1
  (if comment_matches text auto.delete_keywords then
    [⟨ActionKind.delete, (net ActionKind.delete).1, (net ActionKind.delete).2⟩]
  else []) ++
  (if !deleted && comment_matches text auto.hide_keywords then
    [⟨ActionKind.hide, (net ActionKind.hide).1, (net ActionKind.hide).2⟩]
  else []) ++
  (if auto.like && !deleted then
    [⟨ActionKind.like, (net ActionKind.like).1, (net ActionKind.like).2⟩]
  else []) ++
  (if idTruthy c.from_id && comment_matches text auto.block_keywords then
    [⟨ActionKind.block, (net ActionKind.block).1, (net ActionKind.block).2⟩]
  else []) ++
  (if auto.message_template != "" && idTruthy c.from_id then
    match render auto.message_template ((c.from_name).getD "Người dùng") with
    | none => [⟨ActionKind.reply, false, "template format error"⟩]
    | some _ => [⟨ActionKind.reply, (net ActionKind.reply).1, (net ActionKind.reply).2⟩]
  else [])

/-- Per-comment notification pushed onto `messages` for each new comment
(lines 797-807); the chat formatting is out of scope, so the report is
kept structured. -/
structure Report where
  actor_name : String
  actor_id : Option String
  text : String
  actions : List ActionResult
deriving DecidableEq

/-- Running cursor state of the loop over a post's comments:
`latest_dt`, `latest_id`, `latest_ids` of lines 732-734. -/
structure CurSt where
  latest_dt : Option Int
  latest_id : Option String
  latest_ids : Finset String
deriving DecidableEq

/-- Cursor advance for one new comment (lines 808-813): reset the tied id
set whenever the running maximum strictly advances (`if not latest_dt or
created > latest_dt`), then record the id when the comment sits at the
running maximum and its id is truthy. -/
def cursor_step (st : CurSt) (t : Int) (cid : Option String) : CurSt :=
  let st1 :=
    if st.latest_dt.all (fun d => decide (d < t)) then
      { latest_dt := some t, latest_id := st.latest_id, latest_ids := (∅ : Finset String) }
    else st
  match cid with
  | some i =>
    if st1.latest_dt = some t ∧ i ≠ "" then
      { st1 with latest_ids := insert i st1.latest_ids, latest_id := some i }
    else st1
  | none => st1

/-- Update payload recorded for a post at lines 814-821: the new time and
last id are always written; the tied id set is written only when nonempty
(`if latest_ids:`).  The source serializes the time back to UTC ISO and
the set as a sorted list. -/
structure UpdatePayload where
  last_comment_time : Int
  last_comment_id : Option String
  last_comment_ids : Option (Finset String)

/-- Field-wise equality decision for `UpdatePayload` (kept recursor-free
so that closed propositions about payloads evaluate). -/
instance : DecidableEq UpdatePayload := fun a b =>
  decidable_of_iff (a.last_comment_time = b.last_comment_time ∧
      a.last_comment_id = b.last_comment_id ∧
      a.last_comment_ids = b.last_comment_ids) (by
    constructor
    · rintro ⟨h1, h2, h3⟩
      cases a; cases b
      simp_all
    · rintro rfl
      exact ⟨rfl, rfl, rfl⟩)

/-- Build the update payload from the final loop state (lines 814-821);
`none` when `latest_dt` stayed `None`, in which case nothing is recorded
for the post. -/
def cursor_payload (st : CurSt) : Option UpdatePayload :=
  match st.latest_dt with
  | none => none
  | some t =>
    some { last_comment_time := t, last_comment_id := st.latest_id,
           last_comment_ids := if st.latest_ids = ∅ then none else some st.latest_ids }

/-- The `post.update(update_payload)` dict merge performed by
`monitor_pages` at line 854: the time and last id keys are always present
in the payload and overwrite, the id-set key overwrites only when the
payload carries it. -/
def apply_payload (meta : PostMeta) (p : UpdatePayload) : PostMeta :=
  { last_comment_time := some p.last_comment_time,
    last_comment_id := p.last_comment_id,
    last_comment_ids := p.last_comment_ids.getD meta.last_comment_ids }

/-- Body of the loop over one post's fetched comments (lines 735-813):
skip duplicates and unparseable items, and for each new comment run the
action chain, append its report, and advance the running cursor. -/
def post_step (strptime : String → Option Int)
    (net : Comment → ActionKind → Bool × String)
    (render : String → String → Option String) (auto : AutoCfg)
    (last_dt : Option Int) (lids : Finset String)
    (acc : CurSt × List Report) (c : Comment) : CurSt × List Report :=
  match classify strptime last_dt lids c with
  | ItemClass.new =>
    match parse_fb_time strptime c.created_time with
    | some t =>
      (cursor_step acc.1 t c.id,
       acc.2 ++ [⟨(c.from_name).getD "Người dùng", c.from_id, c.message,
                  run_actions (net c) render auto c⟩])
    | none => acc
  | _ => acc

/-- Cursor-only projection of `post_step`, used to reason about the final
cursor independently of the accumulated reports. -/
def cursor_fold_step (strptime : String → Option Int) (last_dt : Option Int)
    (lids : Finset String) (st : CurSt) (c : Comment) : CurSt :=
  match classify strptime last_dt lids c with
  | ItemClass.new =>
    match parse_fb_time strptime c.created_time with
    | some t => cursor_step st t c.id
    | none => st
  | _ => st

/-- Processing of one fetched comment page for one post inside
`process_page_posts` (lines 720-821): an empty page yields nothing
(line 721-722); otherwise the page is walked oldest-first
(`reversed(comments)`, line 735) and the final cursor state is turned
into the optional update payload.  Fetch errors for the post (lines
705-719) yield no update and are handled by the caller. -/
def process_post (strptime : String → Option Int)
    (net : Comment → ActionKind → Bool × String)
    (render : String → String → Option String) (auto : AutoCfg)
    (meta : PostMeta) (comments : List Comment) :
    Option UpdatePayload × List Report :=
  if comments = [] then (none, [])
  else
    (cursor_payload
      ((comments.reverse.foldl
        (post_step strptime net render auto meta.last_comment_time (last_ids meta))
        (⟨meta.last_comment_time, meta.last_comment_id, last_ids meta⟩, [])).1),
     (comments.reverse.foldl
        (post_step strptime net render auto meta.last_comment_time (last_ids meta))
        (⟨meta.last_comment_time, meta.last_comment_id, last_ids meta⟩, [])).2)

/-- Ids of the page's comments that are classified new, carry a truthy id
and have creation time exactly `t`.  Used to state what the tied id set
must contain. -/
def newIdsAt (strptime : String → Option Int) (last_dt : Option Int)
    (lids : Finset String) (comments : List Comment) (t : Int) : Finset String :=
  (comments.filterMap (fun c =>
    match c.id with
    | some i =>
      if classify strptime last_dt lids c = ItemClass.new ∧
          parse_fb_time strptime c.created_time = some t ∧ i ≠ "" then
        some i
      else none
    | none => none)).toFinset

/-- One monitored page `user["pages"][page_id]` with the defaults of
`add_page` (lines 275-300). -/
structure Page where
  token : String := ""
  name : String := ""
  auto : AutoCfg := {}
  posts : List (String × PostMeta) := []
  last_error : String := ""
deriving DecidableEq

/-- Merge of one post's update payload into a tenant's pages map,
`monitor_pages` lines 848-855: a page that disappeared is skipped
(`if not page: continue`), while the post entry is re-created when absent
(`page.setdefault("posts", {}).setdefault(post_id, {})`) and then updated
with the payload. -/
def merge_post_update (page_id post_id : String) (p : UpdatePayload)
    (pages : List (String × Page)) : List (String × Page) :=
  match assoc_find page_id pages with
  | none => pages
  | some pg =>
    match assoc_find post_id pg.posts with
    | some m =>
      set_assoc page_id
        (fun _ => { pg with posts := set_assoc post_id (fun _ => apply_payload m p) pg.posts })
        pages
    | none =>
      set_assoc page_id
        (fun _ => { pg with posts := pg.posts ++ [(post_id, apply_payload {} p)] })
        pages

/-- Tenant record `state["users"][chat_id]` as a JSON object whose keys
may individually be absent (`None` here models an absent key), matching
how `ensure_user` (lines 65-78) heals each key with `setdefault`. -/
structure UserRec where
  token : Option String := none
  uids : Option (List (String × UidMeta)) := none
  pages : Option (List (String × Page)) := none
deriving DecidableEq

/-- The record produced by the three `setdefault` calls of `ensure_user`
(lines 75-77): each absent key is filled with its default, present keys
are kept. -/
def healed (u : UserRec) : UserRec :=
  { token := some (u.token.getD ""), uids := some (u.uids.getD []),
    pages := some (u.pages.getD []) }

/-- Lazy tenant creation `ensure_user` (lines 65-78):
`users.setdefault(str(chat_id), {...})` followed by a `setdefault` of each
of the three keys, returning the (healed) record.  The function returns
the record together with the updated users map. -/
def ensure_user (chat_id : String) (users : List (String × UserRec)) :
    UserRec × List (String × UserRec) :=
  match assoc_find chat_id users with
  | some u =>
    let u' : UserRec :=
      { token := some (u.token.getD ""), uids := some (u.uids.getD []),
        pages := some (u.pages.getD []) }
    (u', set_assoc chat_id (fun _ => u') users)
  | none =>
    let u' : UserRec := { token := some "", uids := some [], pages := some [] }
    (u', users ++ [(chat_id, u')])

/-! Concrete instances used by the witness and counterexample theorems. -/

/-- Upstream oracle whose calls all succeed. -/
def netOk : Comment → ActionKind → Bool × String := fun _ _ => (true, "OK")

/-- Upstream oracle for a single comment whose calls all succeed. -/
def netOkK : ActionKind → Bool × String := fun _ => (true, "OK")

/-- Template renderer that always succeeds. -/
def renderOk : String → String → Option String := fun _ n => some n

/-- Default moderation policy (`add_page` defaults). -/
def autoDefault : AutoCfg := {}

/-- Library-parse stand-in: "T" parses to instant 100, all else fails. -/
def strpT : String → Option Int := fun s => if s = "T" then some 100 else none

/-- Library-parse stand-in: "T10" parses to instant 10, all else fails. -/
def strpT10 : String → Option Int := fun s => if s = "T10" then some 10 else none

/-- Library-parse stand-in: "T20" parses to instant 20, all else fails. -/
def strpT20 : String → Option Int := fun s => if s = "T20" then some 20 else none

/-- Library-parse stand-in: "T5" parses to instant 5, all else fails. -/
def strpT5 : String → Option Int := fun s => if s = "T5" then some 5 else none

/-- Comment A at the tied timestamp (already seen). -/
def cmtA : Comment :=
  { id := some "A", message := "hello", created_time := "T", from_id := some "ua",
    from_name := some "Alice" }

/-- Comment B at the tied timestamp (new). -/
def cmtB : Comment :=
  { id := some "B", message := "hello", created_time := "T", from_id := some "ub",
    from_name := some "Bob" }

/-- Comment C at the tied timestamp (new). -/
def cmtC : Comment :=
  { id := some "C", message := "hello", created_time := "T", from_id := some "uc",
    from_name := some "Cara" }

/-- Stored cursor (T = 100, ids {A}) for the tie-handling scenario. -/
def metaC3 : PostMeta :=
  { last_comment_time := some 100, last_comment_id := some "A", last_comment_ids := {"A"} }

/-- Stored cursor (10, {A}) for the duplicate-only page scenario. -/
def metaC4 : PostMeta :=
  { last_comment_time := some 10, last_comment_id := some "A", last_comment_ids := {"A"} }

/-- Duplicate comment: id A at the stored instant 10. -/
def cmtDup : Comment := { id := some "A", message := "hi", created_time := "T10" }

/-- Stored cursor (10, {A}) for the id-less-item scenario. -/
def metaCX : PostMeta :=
  { last_comment_time := some 10, last_comment_id := some "A", last_comment_ids := {"A"} }

/-- New comment at instant 20 whose id field is absent. -/
def cmtNoId : Comment := { id := none, message := "late", created_time := "T20" }

/-- Empty stored cursor for the fresh-post scenario. -/
def metaFresh : PostMeta := {}

/-- New comment with id B at instant 5. -/
def cmtB5 : Comment := { id := some "B", message := "m", created_time := "T5" }

/-- Stored UID record with status `live` / summary `ok`. -/
def mLive : UidMeta := { status := "live", summary := "ok" }

/-- Observation with status `live` / summary `ok` (unchanged pair). -/
def resLive : UidRes := { status := "live", summary := "ok", checked_at := "t1" }

/-- Observation with a credential error. -/
def resTok : UidRes := { status := "token_error", summary := "bad", checked_at := "t1" }

/-- Fetch oracle: identity U2 hits a credential error, all others are live. -/
def fetchC5 : String → UidRes := fun u => if u = "U2" then resTok else resLive

/-- Fetch oracle that always reports a credential error. -/
def fetchTok : String → UidRes := fun _ => resTok

/-- Fetch oracle that always reports `live` / `ok`. -/
def fetchLive : String → UidRes := fun _ => resLive

/-- Policy whose delete, hide and block keyword lists all contain "bad". -/
def autoDel : AutoCfg :=
  { delete_keywords := ["bad"], hide_keywords := ["bad"], block_keywords := ["bad"] }

/-- Comment matching the delete, hide and block keywords. -/
def cmtBad : Comment :=
  { id := some "X", message := "so bad", created_time := "T", from_id := some "u9",
    from_name := some "Eve" }

/-- Stored users map with one tenant whose `pages` key is absent. -/
def usersW : List (String × UserRec) :=
  [("1", { token := some "tok", uids := some [("U1", mLive)], pages := none })]

/-- Stored UID map for the removed-identity scenario. -/
def storeW : List (String × UidMeta) := [("U1", mLive)]

/-- Page with no watched posts. -/
def pageW : Page := { token := "ptok", name := "P" }

/-- Pages map with the single page `P`. -/
def pagesW : List (String × Page) := [("P", pageW)]

/-- Cursor update payload for the re-created post entry. -/
def payloadW : UpdatePayload :=
  { last_comment_time := 7, last_comment_id := some "c1", last_comment_ids := some {"c1"} }

/-! Helper lemmas about the association-list operations. -/

lemma assoc_find_set_assoc_self {β : Type} (k : String) (f : β → β)
    (l : List (String × β)) :
    assoc_find k (set_assoc k f l) = (assoc_find k l).map f := by
  induction l with
  | nil => rfl
  | cons p rest ih =>
    obtain ⟨k', v⟩ := p
    by_cases h : k' = k
    · simp [set_assoc, assoc_find, h]
    · simp [set_assoc, assoc_find, h, ih]

lemma assoc_find_set_assoc_ne {β : Type} {v k : String} (f : β → β)
    (l : List (String × β)) (h : v ≠ k) :
    assoc_find v (set_assoc k f l) = assoc_find v l := by
  induction l with
  | nil => rfl
  | cons p rest ih =>
    obtain ⟨k', w⟩ := p
    by_cases hk : k' = k
    · have hkv : k ≠ v := Ne.symm h
      simp [set_assoc, assoc_find, hk, hkv, ih]
    · by_cases hv : k' = v
      · simp [set_assoc, assoc_find, hk, hv, h]
      · simp [set_assoc, assoc_find, hk, hv, ih]

lemma set_assoc_const_of_find {β : Type} {k : String} {x : β}
    (l : List (String × β)) (h : assoc_find k l = some x) :
    set_assoc k (fun _ => x) l = l := by
  induction l with
  | nil => rfl
  | cons p rest ih =>
    obtain ⟨k', v⟩ := p
    by_cases hk : k' = k
    · have hv : v = x := by
        rw [assoc_find, if_pos hk] at h
        exact Option.some.inj h
      simp [set_assoc, hk, hv]
    · rw [assoc_find, if_neg hk] at h
      simp [set_assoc, hk, ih h]

lemma assoc_find_append_of_none {β : Type} {k : String} {l1 : List (String × β)}
    (l2 : List (String × β)) (h : assoc_find k l1 = none) :
    assoc_find k (l1 ++ l2) = assoc_find k l2 := by
  induction l1 with
  | nil => rfl
  | cons p rest ih =>
    obtain ⟨k', v⟩ := p
    by_cases hk : k' = k
    · rw [assoc_find, if_pos hk] at h; cases h
    · rw [assoc_find, if_neg hk] at h
      simp [assoc_find, hk, ih h]

lemma assoc_find_singleton {β : Type} (k : String) (x : β) :
    assoc_find k [(k, x)] = some x := by
  simp [assoc_find]

/-! Helper lemmas about the UID-result merge `apply_uid_results`. -/

lemma apply_fold_find_of_not_mem (now : String) (results : List (String × UidRes)) :
    ∀ (acc : List (String × UidMeta) × Bool) (v : String),
      v ∉ results.map Prod.fst →
      assoc_find v (results.foldl (apply_step now) acc).1 = assoc_find v acc.1 := by
  induction results with
  | nil => intro acc v _; rfl
  | cons ur rest ih =>
    intro acc v h
    simp only [List.map_cons, List.mem_cons, not_or] at h
    rw [List.foldl_cons, ih _ _ h.2]
    unfold apply_step
    cases hf : assoc_find ur.1 acc.1 with
    | none => rfl
    | some m => simp [assoc_find_set_assoc_ne _ _ h.1]

lemma apply_fold_find_none (now : String) (results : List (String × UidRes)) :
    ∀ (acc : List (String × UidMeta) × Bool) (v : String),
      assoc_find v acc.1 = none →
      assoc_find v (results.foldl (apply_step now) acc).1 = none := by
  induction results with
  | nil => intro acc v h; exact h
  | cons ur rest ih =>
    intro acc v h
    rw [List.foldl_cons]
    apply ih
    unfold apply_step
    cases hf : assoc_find ur.1 acc.1 with
    | none => exact h
    | some m =>
      by_cases hv : v = ur.1
      · subst hv; rw [h] at hf; cases hf
      · simp [assoc_find_set_assoc_ne _ _ hv, h]

/-! Helper lemmas about the batch check loop `check_user_uids`. -/

lemma check_user_uids_fst_append (fetch : String → UidRes)
    (pre rest : List (String × UidMeta))
    (hpre : ∀ p ∈ pre, (fetch p.1).status ≠ "token_error") :
    (check_user_uids fetch (pre ++ rest)).1
      = pre.map (fun p => (p.1, fetch p.1)) ++ (check_user_uids fetch rest).1 := by
  induction pre with
  | nil => simp
  | cons p t ih =>
    obtain ⟨uid, meta⟩ := p
    have hp : (fetch uid).status ≠ "token_error" := hpre (uid, meta) (List.mem_cons_self _ _)
    have ih' := ih (fun q hq => hpre q (List.mem_cons_of_mem _ hq))
    simp only [List.cons_append, check_user_uids, if_neg hp]
    simp [ih']

lemma check_user_uids_tok_count_append (fetch : String → UidRes)
    (pre rest : List (String × UidMeta))
    (hpre : ∀ p ∈ pre, (fetch p.1).status ≠ "token_error") :
    (check_user_uids fetch (pre ++ rest)).2.countP Note.isTok
      = (check_user_uids fetch rest).2.countP Note.isTok := by
  induction pre with
  | nil => simp
  | cons p t ih =>
    obtain ⟨uid, meta⟩ := p
    have hp : (fetch uid).status ≠ "token_error" := hpre (uid, meta) (List.mem_cons_self _ _)
    have ih' := ih (fun q hq => hpre q (List.mem_cons_of_mem _ hq))
    simp only [List.cons_append, check_user_uids, if_neg hp]
    rw [List.countP_append]
    have hz : (if meta.status ≠ (fetch uid).status ∨ meta.summary ≠ (fetch uid).summary then
        [Note.change uid meta.status (fetch uid).status] else []).countP Note.isTok = 0 := by
      split
      · simp [Note.isTok]
      · simp
    rw [hz, Nat.zero_add]
    exact ih'

/-! Helper lemmas about the comment classification. -/

lemma empty_not_mem_last_ids (meta : PostMeta) : "" ∉ last_ids meta := by
  unfold last_ids
  simp only [Finset.mem_union, Finset.mem_erase, not_or]
  constructor
  · intro h; exact h.1 rfl
  · cases hid : meta.last_comment_id with
    | none => simp
    | some i =>
      by_cases hi : i = ""
      · simp [hi]
      · simp only [if_neg hi, Finset.mem_singleton]
        exact fun h => hi h.symm

lemma classify_new_time (strptime : String → Option Int) (last_dt : Option Int)
    (lids : Finset String) (c : Comment)
    (h : classify strptime last_dt lids c = ItemClass.new) :
    ∃ t, parse_fb_time strptime c.created_time = some t := by
  unfold classify at h
  cases hp : parse_fb_time strptime c.created_time with
  | none => rw [hp] at h; simp at h
  | some t => exact ⟨t, rfl⟩

lemma classify_new_ge (strptime : String → Option Int) {d t : Int}
    (lids : Finset String) (c : Comment)
    (h : classify strptime (some d) lids c = ItemClass.new)
    (hp : parse_fb_time strptime c.created_time = some t) : d ≤ t := by
  by_contra hlt
  push_neg at hlt
  have hd : classify strptime (some d) lids c = ItemClass.dup := by
    unfold classify
    rw [hp]
    simp [hlt]
  rw [hd] at h
  cases h

/-! Helper lemmas about the per-post cursor fold. -/

lemma mem_newIdsAt {strptime : String → Option Int} {last_dt : Option Int}
    {lids : Finset String} {l : List Comment} {t : Int} {i : String} :
    i ∈ newIdsAt strptime last_dt lids l t ↔
      ∃ c, c ∈ l ∧ c.id = some i ∧ classify strptime last_dt lids c = ItemClass.new ∧
        parse_fb_time strptime c.created_time = some t ∧ i ≠ "" := by
  unfold newIdsAt
  rw [List.mem_toFinset, List.mem_filterMap]
  constructor
  · rintro ⟨c, hc, hf⟩
    refine ⟨c, hc, ?_⟩
    cases hid : c.id with
    | none =>
      rw [hid] at hf
      have hf2 : (none : Option String) = some i := hf
      cases hf2
    | some j =>
      rw [hid] at hf
      have hf2 : (if classify strptime last_dt lids c = ItemClass.new ∧
          parse_fb_time strptime c.created_time = some t ∧ j ≠ "" then
            some j else none) = some i := hf
      by_cases hcond : classify strptime last_dt lids c = ItemClass.new ∧
          parse_fb_time strptime c.created_time = some t ∧ j ≠ ""
      · rw [if_pos hcond] at hf2
        obtain rfl : j = i := Option.some.inj hf2
        exact ⟨rfl, hcond.1, hcond.2.1, hcond.2.2⟩
      · rw [if_neg hcond] at hf2; cases hf2
  · rintro ⟨c, hc, hid, hnew, hp, hne⟩
    refine ⟨c, hc, ?_⟩
    rw [hid]
    show (if classify strptime last_dt lids c = ItemClass.new ∧
        parse_fb_time strptime c.created_time = some t ∧ i ≠ "" then
          some i else none) = some i
    rw [if_pos ⟨hnew, hp, hne⟩]

lemma mem_newIdsAt_append {strptime : String → Option Int} {last_dt : Option Int}
    {lids : Finset String} {l : List Comment} {c : Comment} {t : Int} {i : String} :
    i ∈ newIdsAt strptime last_dt lids (l ++ [c]) t ↔
      (i ∈ newIdsAt strptime last_dt lids l t ∨
        (c.id = some i ∧ classify strptime last_dt lids c = ItemClass.new ∧
          parse_fb_time strptime c.created_time = some t ∧ i ≠ "")) := by
  simp only [mem_newIdsAt, List.mem_append, List.mem_singleton]
  constructor
  · rintro ⟨c', hc' | hc', hrest⟩
    · exact Or.inl ⟨c', hc', hrest⟩
    · subst hc'; exact Or.inr hrest
  · rintro (⟨c', hc', hrest⟩ | hrest)
    · exact ⟨c', Or.inl hc', hrest⟩
    · exact ⟨c, Or.inr rfl, hrest⟩

lemma newIdsAt_reverse (strptime : String → Option Int) (last_dt : Option Int)
    (lids : Finset String) (l : List Comment) (t : Int) :
    newIdsAt strptime last_dt lids l.reverse t = newIdsAt strptime last_dt lids l t := by
  ext i
  simp only [mem_newIdsAt, List.mem_reverse]

lemma post_fold_fst (strptime : String → Option Int)
    (net : Comment → ActionKind → Bool × String)
    (render : String → String → Option String) (auto : AutoCfg)
    (last_dt : Option Int) (lids : Finset String) :
    ∀ (l : List Comment) (acc : CurSt × List Report),
      (l.foldl (post_step strptime net render auto last_dt lids) acc).1
        = l.foldl (cursor_fold_step strptime last_dt lids) acc.1 := by
  intro l
  induction l with
  | nil => intro acc; rfl
  | cons c t ih =>
    intro acc
    rw [List.foldl_cons, List.foldl_cons, ih]
    congr 1
    unfold post_step cursor_fold_step
    cases hcl : classify strptime last_dt lids c with
    | noTime => rfl
    | dup => rfl
    | new =>
      cases hp : parse_fb_time strptime c.created_time with
      | none => rfl
      | some t' => rfl

lemma cursor_fold_no_new (strptime : String → Option Int) (d0 : Option Int)
    (lids0 : Finset String) :
    ∀ (l : List Comment) (st : CurSt),
      (∀ c ∈ l, classify strptime d0 lids0 c ≠ ItemClass.new) →
      l.foldl (cursor_fold_step strptime d0 lids0) st = st := by
  intro l
  induction l with
  | nil => intro st _; rfl
  | cons c t ih =>
    intro st h
    rw [List.foldl_cons]
    have hc := h c (List.mem_cons_self _ _)
    have hstep : cursor_fold_step strptime d0 lids0 st c = st := by
      unfold cursor_fold_step
      cases hcl : classify strptime d0 lids0 c with
      | noTime => rfl
      | dup => rfl
      | new => exact absurd hcl hc
    rw [hstep]
    exact ih st (fun c' hc' => h c' (List.mem_cons_of_mem _ hc'))

lemma cursor_step_reset_none (st : CurSt) (t : Int)
    (hr : (st.latest_dt.all fun d => decide (d < t)) = true) :
    cursor_step st t none = ⟨some t, st.latest_id, ∅⟩ := by
  unfold cursor_step
  rw [if_pos hr]

lemma cursor_step_reset_blank (st : CurSt) (t : Int)
    (hr : (st.latest_dt.all fun d => decide (d < t)) = true) :
    cursor_step st t (some "") = ⟨some t, st.latest_id, ∅⟩ := by
  unfold cursor_step
  rw [if_pos hr]
  show (if some t = some t ∧ ("" : String) ≠ "" then
      (⟨some t, some "", insert "" ∅⟩ : CurSt)
    else ⟨some t, st.latest_id, ∅⟩) = ⟨some t, st.latest_id, ∅⟩
  rw [if_neg (fun h => h.2 rfl)]

lemma cursor_step_reset_id (st : CurSt) (t : Int) {i : String} (hi : i ≠ "")
    (hr : (st.latest_dt.all fun d => decide (d < t)) = true) :
    cursor_step st t (some i) = ⟨some t, some i, insert i ∅⟩ := by
  unfold cursor_step
  rw [if_pos hr]
  show (if some t = some t ∧ i ≠ "" then
      (⟨some t, some i, insert i ∅⟩ : CurSt)
    else ⟨some t, st.latest_id, ∅⟩) = ⟨some t, some i, insert i ∅⟩
  rw [if_pos ⟨rfl, hi⟩]

lemma cursor_step_keep_none (st : CurSt) (t : Int)
    (hr : ¬ (st.latest_dt.all fun d => decide (d < t)) = true) :
    cursor_step st t none = st := by
  unfold cursor_step
  rw [if_neg hr]

lemma cursor_step_keep_miss (st : CurSt) (t : Int) {j : String}
    (hr : ¬ (st.latest_dt.all fun d => decide (d < t)) = true)
    (hcond : ¬ (st.latest_dt = some t ∧ j ≠ "")) :
    cursor_step st t (some j) = st := by
  unfold cursor_step
  rw [if_neg hr]
  show (if st.latest_dt = some t ∧ j ≠ "" then
      (⟨st.latest_dt, some j, insert j st.latest_ids⟩ : CurSt)
    else st) = st
  rw [if_neg hcond]

lemma cursor_step_keep_hit (st : CurSt) (t : Int) {j : String}
    (hr : ¬ (st.latest_dt.all fun d => decide (d < t)) = true)
    (hcond : st.latest_dt = some t ∧ j ≠ "") :
    cursor_step st t (some j) = ⟨st.latest_dt, some j, insert j st.latest_ids⟩ := by
  unfold cursor_step
  rw [if_neg hr]
  show (if st.latest_dt = some t ∧ j ≠ "" then
      (⟨st.latest_dt, some j, insert j st.latest_ids⟩ : CurSt)
    else st) = ⟨st.latest_dt, some j, insert j st.latest_ids⟩
  rw [if_pos hcond]

lemma cursor_fold_inv (strptime : String → Option Int) (d0 : Option Int)
    (lid0 : Option String) (lids0 : Finset String) :
    ∀ (l : List Comment) (st : CurSt),
      st = l.foldl (cursor_fold_step strptime d0 lids0) ⟨d0, lid0, lids0⟩ →
      ((∀ d, d0 = some d → ∃ e, st.latest_dt = some e ∧ d ≤ e)
      ∧ (∀ c ∈ l, ∀ t, classify strptime d0 lids0 c = ItemClass.new →
          parse_fb_time strptime c.created_time = some t →
          ∃ e, st.latest_dt = some e ∧ t ≤ e)
      ∧ (∀ e, st.latest_dt = some e →
          ∀ i, (i ∈ st.latest_ids ↔
            (i ∈ newIdsAt strptime d0 lids0 l e ∨ (d0 = some e ∧ i ∈ lids0))))) := by
  intro l
  induction l using List.reverseRecOn with
  | nil =>
    intro st hst
    subst hst
    refine ⟨fun d hd => ⟨d, hd, le_refl d⟩, ?_, ?_⟩
    · intro c hc; cases hc
    · intro e he i
      have hd0 : d0 = some e := he
      show i ∈ lids0 ↔ (i ∈ newIdsAt strptime d0 lids0 [] e ∨ (d0 = some e ∧ i ∈ lids0))
      simp [newIdsAt, hd0]
  | append_singleton l c ih =>
    intro st hst
    rw [List.foldl_append, List.foldl_cons, List.foldl_nil] at hst
    obtain ⟨ihA, ihB, ihC⟩ :=
      ih (List.foldl (cursor_fold_step strptime d0 lids0) ⟨d0, lid0, lids0⟩ l) rfl
    set prev : CurSt :=
      List.foldl (cursor_fold_step strptime d0 lids0) ⟨d0, lid0, lids0⟩ l with hpv
    by_cases hnewc : classify strptime d0 lids0 c = ItemClass.new
    case neg =>
      have hstep : cursor_fold_step strptime d0 lids0 prev c = prev := by
        unfold cursor_fold_step
        cases hcl : classify strptime d0 lids0 c with
        | noTime => rfl
        | dup => rfl
        | new => exact absurd hcl hnewc
      rw [hstep] at hst
      subst hst
      refine ⟨ihA, ?_, ?_⟩
      · intro c' hc' t hnew' hp'
        rcases List.mem_append.1 hc' with h | h
        · exact ihB c' h t hnew' hp'
        · rw [List.mem_singleton] at h
          subst h
          exact absurd hnew' hnewc
      · intro e he i
        rw [ihC e he i, mem_newIdsAt_append]
        constructor
        · rintro (h | h)
          · exact Or.inl (Or.inl h)
          · exact Or.inr h
        · rintro ((h | ⟨_, hnew', _, _⟩) | h)
          · exact Or.inl h
          · exact absurd hnew' hnewc
          · exact Or.inr h
    case pos =>
      obtain ⟨t, hp⟩ := classify_new_time strptime d0 lids0 c hnewc
      have hstep : cursor_fold_step strptime d0 lids0 prev c = cursor_step prev t c.id := by
        unfold cursor_fold_step
        rw [hnewc, hp]
      rw [hstep] at hst
      by_cases hr : (prev.latest_dt.all fun d => decide (d < t)) = true
      · -- the running maximum strictly advances to t
        have hbound : ∀ e0, prev.latest_dt = some e0 → e0 < t := by
          intro e0 he0
          rw [he0] at hr
          have hdec : decide (e0 < t) = true := hr
          exact of_decide_eq_true hdec
        have hAle : ∀ d, d0 = some d → d ≤ t := by
          intro d hd
          obtain ⟨e0, he0, hde⟩ := ihA d hd
          exact le_of_lt (lt_of_le_of_lt hde (hbound e0 he0))
        have hnol : ∀ c' ∈ l, ∀ t', classify strptime d0 lids0 c' = ItemClass.new →
            parse_fb_time strptime c'.created_time = some t' → t' < t := by
          intro c' hc' t' hnew' hp'
          obtain ⟨e0, he0, hte⟩ := ihB c' hc' t' hnew' hp'
          exact lt_of_le_of_lt hte (hbound e0 he0)
        have hd0t : d0 ≠ some t := by
          intro hd
          obtain ⟨e0, he0, hte⟩ := ihA t hd
          exact absurd (lt_of_le_of_lt hte (hbound e0 he0)) (lt_irrefl t)
        have hempty : ∀ i, i ∉ newIdsAt strptime d0 lids0 l t := by
          intro i hi
          rcases mem_newIdsAt.1 hi with ⟨c', hc', _, hnew', hp', _⟩
          exact absurd (hnol c' hc' t hnew' hp') (lt_irrefl t)
        cases hcid : c.id with
        | none =>
          rw [hcid, cursor_step_reset_none prev t hr] at hst
          subst hst
          refine ⟨fun d hd => ⟨t, rfl, hAle d hd⟩, ?_, ?_⟩
          · intro c' hc' t' hnew' hp'
            rcases List.mem_append.1 hc' with h | h
            · exact ⟨t, rfl, le_of_lt (hnol c' h t' hnew' hp')⟩
            · rw [List.mem_singleton] at h
              subst h
              obtain rfl : t = t' := Option.some.inj (hp.symm.trans hp')
              exact ⟨t, rfl, le_refl t⟩
          · intro e he i
            obtain rfl : t = e := Option.some.inj he
            constructor
            · intro h; exact absurd h (Finset.not_mem_empty i)
            · rintro (h | ⟨hd, _⟩)
              · rcases mem_newIdsAt_append.1 h with h2 | ⟨hcid2, _⟩
                · exact absurd h2 (hempty i)
                · rw [hcid] at hcid2; cases hcid2
              · exact absurd hd hd0t
        | some j =>
          by_cases hj : j = ""
          · subst hj
            rw [hcid, cursor_step_reset_blank prev t hr] at hst
            subst hst
            refine ⟨fun d hd => ⟨t, rfl, hAle d hd⟩, ?_, ?_⟩
            · intro c' hc' t' hnew' hp'
              rcases List.mem_append.1 hc' with h | h
              · exact ⟨t, rfl, le_of_lt (hnol c' h t' hnew' hp')⟩
              · rw [List.mem_singleton] at h
                subst h
                obtain rfl : t = t' := Option.some.inj (hp.symm.trans hp')
                exact ⟨t, rfl, le_refl t⟩
            · intro e he i
              obtain rfl : t = e := Option.some.inj he
              constructor
              · intro h; exact absurd h (Finset.not_mem_empty i)
              · rintro (h | ⟨hd, _⟩)
                · rcases mem_newIdsAt_append.1 h with h2 | ⟨hcid2, _, _, hne2⟩
                  · exact absurd h2 (hempty i)
                  · rw [hcid] at hcid2
                    exact absurd (Option.some.inj hcid2).symm hne2
                · exact absurd hd hd0t
          · rw [hcid, cursor_step_reset_id prev t hj hr] at hst
            subst hst
            refine ⟨fun d hd => ⟨t, rfl, hAle d hd⟩, ?_, ?_⟩
            · intro c' hc' t' hnew' hp'
              rcases List.mem_append.1 hc' with h | h
              · exact ⟨t, rfl, le_of_lt (hnol c' h t' hnew' hp')⟩
              · rw [List.mem_singleton] at h
                subst h
                obtain rfl : t = t' := Option.some.inj (hp.symm.trans hp')
                exact ⟨t, rfl, le_refl t⟩
            · intro e he i
              obtain rfl : t = e := Option.some.inj he
              show i ∈ insert j ∅ ↔ _
              rw [Finset.mem_insert]
              constructor
              · rintro (rfl | h)
                · exact Or.inl (mem_newIdsAt_append.2 (Or.inr ⟨hcid, hnewc, hp, hj⟩))
                · exact absurd h (Finset.not_mem_empty i)
              · rintro (h | ⟨hd, _⟩)
                · rcases mem_newIdsAt_append.1 h with h2 | ⟨hcid2, _, _, _⟩
                  · exact absurd h2 (hempty i)
                  · rw [hcid] at hcid2
                    exact Or.inl (Option.some.inj hcid2).symm
                · exact absurd hd hd0t
      · -- the running maximum does not move
        have hdt : ∃ e0, prev.latest_dt = some e0 ∧ t ≤ e0 := by
          cases hpd : prev.latest_dt with
          | none =>
            rw [hpd] at hr
            exact absurd rfl hr
          | some e0 =>
            rw [hpd] at hr
            have hnd : ¬ decide (e0 < t) = true := hr
            have hnlt : ¬ e0 < t := fun hlt => hnd (decide_eq_true hlt)
            exact ⟨e0, rfl, le_of_not_lt hnlt⟩
        obtain ⟨e0, he0, hte0⟩ := hdt
        cases hcid : c.id with
        | none =>
          rw [hcid, cursor_step_keep_none prev t hr] at hst
          subst hst
          refine ⟨ihA, ?_, ?_⟩
          · intro c' hc' t' hnew' hp'
            rcases List.mem_append.1 hc' with h | h
            · exact ihB c' h t' hnew' hp'
            · rw [List.mem_singleton] at h
              subst h
              obtain rfl : t = t' := Option.some.inj (hp.symm.trans hp')
              exact ⟨e0, he0, hte0⟩
          · intro e he i
            rw [ihC e he i, mem_newIdsAt_append]
            constructor
            · rintro (h | h)
              · exact Or.inl (Or.inl h)
              · exact Or.inr h
            · rintro ((h | ⟨hcid2, _⟩) | h)
              · exact Or.inl h
              · rw [hcid] at hcid2; cases hcid2
              · exact Or.inr h
        | some j =>
          by_cases hcond : prev.latest_dt = some t ∧ j ≠ ""
          · rw [hcid, cursor_step_keep_hit prev t hr hcond] at hst
            subst hst
            have het : e0 = t := by
              rw [he0] at hcond
              exact Option.some.inj hcond.1
            refine ⟨ihA, ?_, ?_⟩
            · intro c' hc' t' hnew' hp'
              rcases List.mem_append.1 hc' with h | h
              · exact ihB c' h t' hnew' hp'
              · rw [List.mem_singleton] at h
                subst h
                obtain rfl : t = t' := Option.some.inj (hp.symm.trans hp')
                exact ⟨e0, he0, hte0⟩
            · intro e he i
              have he' : prev.latest_dt = some e := he
              obtain rfl : e0 = e := by
                rw [he0] at he'
                exact Option.some.inj he'
              have hcc : (c.id = some i ∧ classify strptime d0 lids0 c = ItemClass.new ∧
                  parse_fb_time strptime c.created_time = some e0 ∧ i ≠ "") ↔ i = j := by
                constructor
                · rintro ⟨hcid2, _, _, _⟩
                  rw [hcid] at hcid2
                  exact (Option.some.inj hcid2).symm
                · rintro rfl
                  exact ⟨hcid, hnewc, by rw [hp, het], hcond.2⟩
              show i ∈ insert j prev.latest_ids ↔ _
              rw [Finset.mem_insert, ihC e0 he0 i, mem_newIdsAt_append, hcc]
              tauto
          · rw [hcid, cursor_step_keep_miss prev t hr hcond] at hst
            subst hst
            refine ⟨ihA, ?_, ?_⟩
            · intro c' hc' t' hnew' hp'
              rcases List.mem_append.1 hc' with h | h
              · exact ihB c' h t' hnew' hp'
              · rw [List.mem_singleton] at h
                subst h
                obtain rfl : t = t' := Option.some.inj (hp.symm.trans hp')
                exact ⟨e0, he0, hte0⟩
            · intro e he i
              rw [ihC e he i, mem_newIdsAt_append]
              constructor
              · rintro (h | h)
                · exact Or.inl (Or.inl h)
                · exact Or.inr h
              · rintro ((h | ⟨hcid2, hnew2, hp2, hne2⟩) | h)
                · exact Or.inl h
                · exfalso
                  obtain rfl : t = e := Option.some.inj (hp.symm.trans hp2)
                  rw [hcid] at hcid2
                  obtain rfl : j = i := Option.some.inj hcid2
                  exact hcond ⟨he, hne2⟩
                · exact Or.inr h

lemma cursor_step_dt (st : CurSt) (t : Int) (cid : Option String) :
    (cursor_step st t cid).latest_dt = some t ∨
      (cursor_step st t cid).latest_dt = st.latest_dt := by
  by_cases hr : (st.latest_dt.all fun d => decide (d < t)) = true
  · cases cid with
    | none =>
      rw [cursor_step_reset_none st t hr]
      exact Or.inl rfl
    | some i =>
      by_cases hi : i = ""
      · subst hi
        rw [cursor_step_reset_blank st t hr]
        exact Or.inl rfl
      · rw [cursor_step_reset_id st t hi hr]
        exact Or.inl rfl
  · cases cid with
    | none =>
      rw [cursor_step_keep_none st t hr]
      exact Or.inr rfl
    | some i =>
      by_cases hcond : st.latest_dt = some t ∧ i ≠ ""
      · rw [cursor_step_keep_hit st t hr hcond]
        exact Or.inr rfl
      · rw [cursor_step_keep_miss st t hr hcond]
        exact Or.inr rfl

lemma cursor_fold_attained (strptime : String → Option Int) (d0 : Option Int)
    (lid0 : Option String) (lids0 : Finset String) :
    ∀ (l : List Comment) (e : Int),
      (l.foldl (cursor_fold_step strptime d0 lids0) ⟨d0, lid0, lids0⟩).latest_dt = some e →
      (d0 = some e ∨ ∃ c ∈ l, classify strptime d0 lids0 c = ItemClass.new ∧
        parse_fb_time strptime c.created_time = some e) := by
  intro l
  induction l using List.reverseRecOn with
  | nil =>
    intro e he
    exact Or.inl he
  | append_singleton l c ih =>
    intro e he
    rw [List.foldl_append, List.foldl_cons, List.foldl_nil] at he
    by_cases hnewc : classify strptime d0 lids0 c = ItemClass.new
    · obtain ⟨t, hp⟩ := classify_new_time strptime d0 lids0 c hnewc
      have hstep : cursor_fold_step strptime d0 lids0
          (List.foldl (cursor_fold_step strptime d0 lids0) ⟨d0, lid0, lids0⟩ l) c =
          cursor_step (List.foldl (cursor_fold_step strptime d0 lids0) ⟨d0, lid0, lids0⟩ l)
            t c.id := by
        unfold cursor_fold_step
        rw [hnewc, hp]
      rw [hstep] at he
      rcases cursor_step_dt
          (List.foldl (cursor_fold_step strptime d0 lids0) ⟨d0, lid0, lids0⟩ l) t c.id with
        h | h
      · rw [h] at he
        obtain rfl : t = e := Option.some.inj he
        exact Or.inr ⟨c, List.mem_append.2 (Or.inr (List.mem_singleton.2 rfl)), hnewc, hp⟩
      · rw [h] at he
        rcases ih e he with h0 | ⟨c', hc', hrest⟩
        · exact Or.inl h0
        · exact Or.inr ⟨c', List.mem_append.2 (Or.inl hc'), hrest⟩
    · have hstep : cursor_fold_step strptime d0 lids0
          (List.foldl (cursor_fold_step strptime d0 lids0) ⟨d0, lid0, lids0⟩ l) c =
          List.foldl (cursor_fold_step strptime d0 lids0) ⟨d0, lid0, lids0⟩ l := by
        unfold cursor_fold_step
        cases hcl : classify strptime d0 lids0 c with
        | noTime => rfl
        | dup => rfl
        | new => exact absurd hcl hnewc
      rw [hstep] at he
      rcases ih e he with h0 | ⟨c', hc', hrest⟩
      · exact Or.inl h0
      · exact Or.inr ⟨c', List.mem_append.2 (Or.inl hc'), hrest⟩

lemma process_post_fst (strptime : String → Option Int)
    (net : Comment → ActionKind → Bool × String)
    (render : String → String → Option String) (auto : AutoCfg)
    (meta : PostMeta) (comments : List Comment) (h : comments ≠ []) :
    (process_post strptime net render auto meta comments).1 =
      cursor_payload
        (List.foldl (cursor_fold_step strptime meta.last_comment_time (last_ids meta))
          ⟨meta.last_comment_time, meta.last_comment_id, last_ids meta⟩ comments.reverse) := by
  unfold process_post
  rw [if_neg h]
  exact congrArg cursor_payload
    (post_fold_fst strptime net render auto meta.last_comment_time (last_ids meta)
      comments.reverse
      (⟨meta.last_comment_time, meta.last_comment_id, last_ids meta⟩, []))

lemma last_ids_of_seeded (meta : PostMeta) (t' : Option Int) :
    last_ids ⟨t', meta.last_comment_id, last_ids meta⟩ = last_ids meta := by
  have h1 : (last_ids meta).erase "" = last_ids meta :=
    Finset.erase_eq_of_not_mem (empty_not_mem_last_ids meta)
  show (last_ids meta).erase "" ∪
      (match meta.last_comment_id with
        | some i => if i = "" then (∅ : Finset String) else {i}
        | none => (∅ : Finset String)) = last_ids meta
  rw [h1]
  have h2 : (match meta.last_comment_id with
      | some i => if i = "" then (∅ : Finset String) else {i}
      | none => (∅ : Finset String)) ⊆ last_ids meta := by
    unfold last_ids
    exact Finset.subset_union_right
  exact Finset.union_eq_left.mpr h2

/-- C1: for every stored cursor and fetched item, the source's
classification (the three skip guards of `process_page_posts`) coincides
with the specified rule: items earlier than `last_seen_at` are duplicates,
items at `last_seen_at` whose id is already in `last_seen_ids` are
duplicates, everything else is new, and an item without a parseable
creation time is always skipped. -/
theorem classification_matches_spec (strptime : String → Option Int)
    (meta : PostMeta) (c : Comment) :
    classify strptime meta.last_comment_time (last_ids meta) c =
      claim_classify meta.last_comment_time (last_ids meta)
        (parse_fb_time strptime c.created_time) c.id := by
  unfold classify claim_classify
  cases hp : parse_fb_time strptime c.created_time with
  | none => rfl
  | some t =>
    cases hd : meta.last_comment_time with
    | none => rfl
    | some d =>
      show (if t < d then ItemClass.dup
          else match c.id with
            | some i =>
              if t = d ∧ i ≠ "" ∧ i ∈ last_ids meta then ItemClass.dup else ItemClass.new
            | none => ItemClass.new)
        = (if t < d then ItemClass.dup
          else match c.id with
            | some i =>
              if t = d ∧ i ∈ last_ids meta then ItemClass.dup else ItemClass.new
            | none => ItemClass.new)
      by_cases hlt : t < d
      · rw [if_pos hlt, if_pos hlt]
      · rw [if_neg hlt, if_neg hlt]
        cases hcid : c.id with
        | none => rfl
        | some i =>
          show (if t = d ∧ i ≠ "" ∧ i ∈ last_ids meta then ItemClass.dup else ItemClass.new)
            = (if t = d ∧ i ∈ last_ids meta then ItemClass.dup else ItemClass.new)
          by_cases hmem : t = d ∧ i ∈ last_ids meta
          · have hne : i ≠ "" := by
              intro hblank
              subst hblank
              exact empty_not_mem_last_ids meta hmem.2
            rw [if_pos ⟨hmem.1, hne, hmem.2⟩, if_pos hmem]
          · have hneg : ¬ (t = d ∧ i ≠ "" ∧ i ∈ last_ids meta) := by
              rintro ⟨h1, _, h3⟩
              exact hmem ⟨h1, h3⟩
            rw [if_neg hneg, if_neg hmem]

/-- C3: with stored cursor (T, {A}) and a page of three items all at T
with ids A, B, C, classification marks A duplicate and B, C new, and the
recorded cursor update is (T, {A, B, C}). -/
theorem same_timestamp_tie :
    classify strpT metaC3.last_comment_time (last_ids metaC3) cmtA = ItemClass.dup
    ∧ classify strpT metaC3.last_comment_time (last_ids metaC3) cmtB = ItemClass.new
    ∧ classify strpT metaC3.last_comment_time (last_ids metaC3) cmtC = ItemClass.new
    ∧ (process_post strpT netOk renderOk autoDefault metaC3 [cmtC, cmtB, cmtA]).1 =
        some { last_comment_time := 100, last_comment_id := some "C",
               last_comment_ids := some ({"A", "B", "C"} : Finset String) } := by
  decide

/-- C4 (counterexample): a page whose only item is a duplicate of the
stored cursor (10, {A}) yields zero new items, yet `process_page_posts`
still records an update payload for the post (line 814 guards only on
`latest_dt`, not on any new item having been seen), so the merge loop of
`monitor_pages` re-writes the resource and persists the state — the claim
that no write occurs is false. -/
theorem no_write_on_no_new_counterexample :
    (∀ c ∈ [cmtDup], classify strpT10 metaC4.last_comment_time (last_ids metaC4) c ≠
        ItemClass.new)
    ∧ (process_post strpT10 netOk renderOk autoDefault metaC4 [cmtDup]).1 =
        some { last_comment_time := 10, last_comment_id := some "A",
               last_comment_ids := some ({"A"} : Finset String) }
    ∧ (process_post strpT10 netOk renderOk autoDefault metaC4 [cmtDup]).1 ≠ none := by
  decide

/-- C4 (amended): when no item of the fetched page is new, the cursor
values never change, but a write is avoided only when the stored
`last_comment_time` is null (or the page is empty): with a non-null
stored time and a nonempty page, `process_page_posts` emits a redundant
update payload that re-asserts the stored cursor — same instant, same
last id, and the same effective id set. -/
theorem no_new_items_cursor_preserved (strptime : String → Option Int)
    (net : Comment → ActionKind → Bool × String)
    (render : String → String → Option String) (auto : AutoCfg)
    (meta : PostMeta) (comments : List Comment)
    (hnone : ∀ c ∈ comments,
      classify strptime meta.last_comment_time (last_ids meta) c ≠ ItemClass.new) :
    (meta.last_comment_time = none →
      (process_post strptime net render auto meta comments).1 = none)
    ∧ (∀ d, meta.last_comment_time = some d → comments ≠ [] →
        ∃ p : UpdatePayload,
          (process_post strptime net render auto meta comments).1 = some p
          ∧ p.last_comment_time = d
          ∧ p.last_comment_id = meta.last_comment_id
          ∧ (apply_payload meta p).last_comment_time = meta.last_comment_time
          ∧ (apply_payload meta p).last_comment_id = meta.last_comment_id
          ∧ last_ids (apply_payload meta p) = last_ids meta) := by
  have hstable : ∀ _ : comments ≠ [],
      (process_post strptime net render auto meta comments).1 =
        cursor_payload ⟨meta.last_comment_time, meta.last_comment_id, last_ids meta⟩ := by
    intro hne
    rw [process_post_fst strptime net render auto meta comments hne]
    congr 1
    apply cursor_fold_no_new
    intro c hc
    exact hnone c (List.mem_reverse.1 hc)
  constructor
  · intro hnt
    by_cases hne : comments = []
    · subst hne
      rfl
    · rw [hstable hne]
      unfold cursor_payload
      rw [hnt]
  · intro d hd hne
    refine ⟨⟨d, meta.last_comment_id,
        if last_ids meta = ∅ then none else some (last_ids meta)⟩, ?_, rfl, rfl, hd.symm, rfl, ?_⟩
    · rw [hstable hne]
      unfold cursor_payload
      rw [hd]
    · by_cases hS : last_ids meta = ∅
      · have happ : apply_payload meta
            ⟨d, meta.last_comment_id, if last_ids meta = ∅ then none else some (last_ids meta)⟩ =
            ⟨some d, meta.last_comment_id, meta.last_comment_ids⟩ := by
          simp [apply_payload, hS]
        rw [happ]
        rfl
      · have happ : apply_payload meta
            ⟨d, meta.last_comment_id, if last_ids meta = ∅ then none else some (last_ids meta)⟩ =
            ⟨some d, meta.last_comment_id, last_ids meta⟩ := by
          simp [apply_payload, hS]
        rw [happ]
        exact last_ids_of_seeded meta (some d)

/-- C4 (witness): instantiation of the amended theorem at the concrete
duplicate-only page. -/
theorem no_new_items_cursor_preserved_witness :
    (∀ c ∈ [cmtDup], classify strpT10 metaC4.last_comment_time (last_ids metaC4) c ≠
        ItemClass.new)
    ∧ ((metaC4.last_comment_time = none →
        (process_post strpT10 netOk renderOk autoDefault metaC4 [cmtDup]).1 = none)
      ∧ (∀ d, metaC4.last_comment_time = some d → [cmtDup] ≠ [] →
          ∃ p : UpdatePayload,
            (process_post strpT10 netOk renderOk autoDefault metaC4 [cmtDup]).1 = some p
            ∧ p.last_comment_time = d
            ∧ p.last_comment_id = metaC4.last_comment_id
            ∧ (apply_payload metaC4 p).last_comment_time = metaC4.last_comment_time
            ∧ (apply_payload metaC4 p).last_comment_id = metaC4.last_comment_id
            ∧ last_ids (apply_payload metaC4 p) = last_ids metaC4)) :=
  ⟨by decide,
   no_new_items_cursor_preserved strpT10 netOk renderOk autoDefault metaC4 [cmtDup]
     (by decide)⟩

/-- C2 (counterexample): with stored cursor (10, {A}), a page consisting
of one new item at instant 20 whose id field is absent advances
`last_seen_at` to 20 but the emitted payload omits the id-set key
(line 819 `if latest_ids:`), so the dict merge keeps the stale set {A}
(and the stale last id A): the resulting `last_seen_ids` is not the set
of ids observed at the new `last_seen_at` (which is empty), and it is not
replaced although the timestamp strictly advanced. -/
theorem monotonic_cursor_counterexample :
    classify strpT20 metaCX.last_comment_time (last_ids metaCX) cmtNoId = ItemClass.new
    ∧ (process_post strpT20 netOk renderOk autoDefault metaCX [cmtNoId]).1 =
        some { last_comment_time := 20, last_comment_id := some "A",
               last_comment_ids := none }
    ∧ (apply_payload metaCX
        { last_comment_time := 20, last_comment_id := some "A",
          last_comment_ids := none }).last_comment_ids = {"A"}
    ∧ newIdsAt strpT20 metaCX.last_comment_time (last_ids metaCX) [cmtNoId] 20 = ∅
    ∧ ({"A"} : Finset String) ≠ ∅ := by
  decide

/-- C2 (amended): when at least one page item is new, an update payload is
emitted whose time is the maximum of the stored time and the new items'
times — it is ≥ the stored time, ≥ every new item's time, and is attained
by the stored time or by some new item — and the tied id set S (ids of
new items with a known id at the new time, merged with the stored set
exactly when the timestamp did not advance) is written as the new
`last_seen_ids` provided S is nonempty; when S is empty — possible only
when no new item at the new maximum carries a non-empty id — the payload
omits the id set and the previously stored ids survive the merge. -/
theorem monotonic_cursor_characterised (strptime : String → Option Int)
    (net : Comment → ActionKind → Bool × String)
    (render : String → String → Option String) (auto : AutoCfg)
    (meta : PostMeta) (comments : List Comment)
    (hnew : ∃ c ∈ comments,
      classify strptime meta.last_comment_time (last_ids meta) c = ItemClass.new) :
    ∃ p : UpdatePayload, ∃ S : Finset String,
      (process_post strptime net render auto meta comments).1 = some p
      ∧ S = newIdsAt strptime meta.last_comment_time (last_ids meta) comments
            p.last_comment_time
          ∪ (if meta.last_comment_time = some p.last_comment_time then last_ids meta else ∅)
      ∧ (∀ d, meta.last_comment_time = some d → d ≤ p.last_comment_time)
      ∧ (∀ c ∈ comments, ∀ t,
          classify strptime meta.last_comment_time (last_ids meta) c = ItemClass.new →
          parse_fb_time strptime c.created_time = some t → t ≤ p.last_comment_time)
      ∧ (meta.last_comment_time = some p.last_comment_time
          ∨ ∃ c ∈ comments,
              classify strptime meta.last_comment_time (last_ids meta) c = ItemClass.new
              ∧ parse_fb_time strptime c.created_time = some p.last_comment_time)
      ∧ (S ≠ ∅ → p.last_comment_ids = some S ∧ (apply_payload meta p).last_comment_ids = S)
      ∧ (S = ∅ → p.last_comment_ids = none ∧
          (apply_payload meta p).last_comment_ids = meta.last_comment_ids) := by
  obtain ⟨c0, hc0, hcnew⟩ := hnew
  have hne : comments ≠ [] := List.ne_nil_of_mem hc0
  obtain ⟨t0, hp0⟩ :=
    classify_new_time strptime meta.last_comment_time (last_ids meta) c0 hcnew
  obtain ⟨invA, invB, invC⟩ := cursor_fold_inv strptime meta.last_comment_time
      meta.last_comment_id (last_ids meta) comments.reverse
      (List.foldl (cursor_fold_step strptime meta.last_comment_time (last_ids meta))
        ⟨meta.last_comment_time, meta.last_comment_id, last_ids meta⟩ comments.reverse) rfl
  set st := List.foldl (cursor_fold_step strptime meta.last_comment_time (last_ids meta))
      ⟨meta.last_comment_time, meta.last_comment_id, last_ids meta⟩ comments.reverse
    with hstdef
  obtain ⟨e, he, hte⟩ := invB c0 (List.mem_reverse.2 hc0) t0 hcnew hp0
  have hfst : (process_post strptime net render auto meta comments).1 = cursor_payload st :=
    process_post_fst strptime net render auto meta comments hne
  have hpay : (process_post strptime net render auto meta comments).1 =
      some ⟨e, st.latest_id, if st.latest_ids = ∅ then none else some st.latest_ids⟩ := by
    rw [hfst]
    unfold cursor_payload
    rw [he]
  have hids : st.latest_ids =
      newIdsAt strptime meta.last_comment_time (last_ids meta) comments e
        ∪ (if meta.last_comment_time = some e then last_ids meta else ∅) := by
    ext i
    rw [Finset.mem_union, invC e he i, newIdsAt_reverse]
    by_cases hmt : meta.last_comment_time = some e
    · simp [hmt]
    · simp [hmt]
  refine ⟨⟨e, st.latest_id, if st.latest_ids = ∅ then none else some st.latest_ids⟩,
    st.latest_ids, hpay, hids, ?_, ?_, ?_, ?_, ?_⟩
  · intro d hd
    obtain ⟨e', he', hde⟩ := invA d hd
    have hee : e' = e := Option.some.inj (he'.symm.trans he)
    subst hee
    exact hde
  · intro c hc t' hcn hpt
    obtain ⟨e2, he2, hte2⟩ := invB c (List.mem_reverse.2 hc) t' hcn hpt
    have hee : e2 = e := Option.some.inj (he2.symm.trans he)
    subst hee
    exact hte2
  · rcases cursor_fold_attained strptime meta.last_comment_time meta.last_comment_id
        (last_ids meta) comments.reverse e he with h0 | ⟨c', hc', hrest⟩
    · exact Or.inl h0
    · exact Or.inr ⟨c', List.mem_reverse.1 hc', hrest⟩
  · intro hSne
    constructor
    · show (if st.latest_ids = ∅ then none else some st.latest_ids) = some st.latest_ids
      rw [if_neg hSne]
    · show ((if st.latest_ids = ∅ then none else
          some st.latest_ids).getD meta.last_comment_ids) = st.latest_ids
      rw [if_neg hSne]
      rfl
  · intro hSe
    constructor
    · show (if st.latest_ids = ∅ then none else some st.latest_ids) = none
      rw [if_pos hSe]
    · show ((if st.latest_ids = ∅ then none else
          some st.latest_ids).getD meta.last_comment_ids) = meta.last_comment_ids
      rw [if_pos hSe]
      rfl

/-- C2 (witness): instantiation of the amended theorem at a fresh cursor
and a single new item with id B at instant 5. -/
theorem monotonic_cursor_characterised_witness :
    (∃ c ∈ [cmtB5],
      classify strpT5 metaFresh.last_comment_time (last_ids metaFresh) c = ItemClass.new)
    ∧ (∃ p : UpdatePayload, ∃ S : Finset String,
        (process_post strpT5 netOk renderOk autoDefault metaFresh [cmtB5]).1 = some p
        ∧ S = newIdsAt strpT5 metaFresh.last_comment_time (last_ids metaFresh) [cmtB5]
              p.last_comment_time
            ∪ (if metaFresh.last_comment_time = some p.last_comment_time then
                last_ids metaFresh else ∅)
        ∧ (∀ d, metaFresh.last_comment_time = some d → d ≤ p.last_comment_time)
        ∧ (∀ c ∈ [cmtB5], ∀ t,
            classify strpT5 metaFresh.last_comment_time (last_ids metaFresh) c =
              ItemClass.new →
            parse_fb_time strpT5 c.created_time = some t → t ≤ p.last_comment_time)
        ∧ (metaFresh.last_comment_time = some p.last_comment_time
            ∨ ∃ c ∈ [cmtB5],
                classify strpT5 metaFresh.last_comment_time (last_ids metaFresh) c =
                  ItemClass.new
                ∧ parse_fb_time strpT5 c.created_time = some p.last_comment_time)
        ∧ (S ≠ ∅ → p.last_comment_ids = some S ∧
            (apply_payload metaFresh p).last_comment_ids = S)
        ∧ (S = ∅ → p.last_comment_ids = none ∧
            (apply_payload metaFresh p).last_comment_ids = metaFresh.last_comment_ids)) :=
  ⟨by decide,
   monotonic_cursor_characterised strpT5 netOk renderOk autoDefault metaFresh [cmtB5]
     (by decide)⟩

lemma apply_step_find_self (now : String) (acc : List (String × UidMeta) × Bool)
    (ur : String × UidRes) (m0 : UidMeta) (h : assoc_find ur.1 acc.1 = some m0) :
    assoc_find ur.1 (apply_step now acc ur).1 = some (update_meta now ur.2 m0) := by
  unfold apply_step
  rw [h]
  show assoc_find ur.1 (set_assoc ur.1 (fun _ => update_meta now ur.2 m0) acc.1)
    = some (update_meta now ur.2 m0)
  rw [assoc_find_set_assoc_self, h]
  rfl

lemma map_fst_of_fetch (fetch : String → UidRes) (pre : List (String × UidMeta)) :
    (pre.map (fun p => (p.1, fetch p.1))).map Prod.fst = pre.map Prod.fst := by
  rw [List.map_map]
  rfl

lemma apply_fold_applied (now : String) :
    ∀ (results : List (String × UidRes)) (acc : List (String × UidMeta) × Bool)
      (x : String) (res : UidRes) (mx : UidMeta),
      (results.map Prod.fst).Nodup →
      (x, res) ∈ results →
      assoc_find x acc.1 = some mx →
      assoc_find x (results.foldl (apply_step now) acc).1
        = some (update_meta now res mx) := by
  intro results
  induction results with
  | nil =>
    intro acc x res mx _ hmem _
    cases hmem
  | cons ur rest ih =>
    intro acc x res mx hnd hmem hfind
    rw [List.map_cons, List.nodup_cons] at hnd
    rw [List.foldl_cons]
    rcases List.mem_cons.1 hmem with heq | hmem2
    · subst heq
      rw [apply_fold_find_of_not_mem now rest _ x hnd.1]
      exact apply_step_find_self now acc (x, res) mx hfind
    · have hne : ur.1 ≠ x := by
        intro h
        apply hnd.1
        rw [h]
        exact List.mem_map.2 ⟨(x, res), hmem2, rfl⟩
      have hkeep : assoc_find x (apply_step now acc ur).1 = some mx := by
        unfold apply_step
        cases hf : assoc_find ur.1 acc.1 with
        | none => exact hfind
        | some m =>
          show assoc_find x (set_assoc ur.1 (fun _ => update_meta now ur.2 m) acc.1)
            = some mx
          rw [assoc_find_set_assoc_ne _ _ (Ne.symm hne)]
          exact hfind
      exact ih _ x res mx hnd.2 hmem2 hkeep

/-- C5: as soon as one identity's observation for a tenant is a
`token_error`, the tenant's remaining identities are not checked in that
cycle: the recorded observations are exactly those up to and including the
failing one, exactly one token-error notification is produced, merging the
recorded observations leaves every identity outside them (in particular
all identities after the failing one) unchanged in the store, and every
observation completed before the stop — each one recorded for a
still-stored identity, including the `token_error` one — is applied to
the store.  The UID map is a Python dict, so its keys are distinct
(`hnd`). -/
theorem credential_short_circuit (fetch : String → UidRes) (now : String)
    (pre post : List (String × UidMeta)) (u : String) (mu : UidMeta)
    (store : List (String × UidMeta)) (m0 : UidMeta)
    (hpre : ∀ p ∈ pre, (fetch p.1).status ≠ "token_error")
    (hu : (fetch u).status = "token_error")
    (hs : assoc_find u store = some m0)
    (hnp : u ∉ pre.map Prod.fst)
    (hnd : (pre.map Prod.fst).Nodup) :
    (check_user_uids fetch (pre ++ (u, mu) :: post)).1
      = pre.map (fun p => (p.1, fetch p.1)) ++ [(u, fetch u)]
    ∧ (check_user_uids fetch (pre ++ (u, mu) :: post)).2.countP Note.isTok = 1
    ∧ (∀ v, v ∉ pre.map Prod.fst → v ≠ u →
        assoc_find v (apply_uid_results now
          (check_user_uids fetch (pre ++ (u, mu) :: post)).1 store).1
          = assoc_find v store)
    ∧ assoc_find u (apply_uid_results now
        (check_user_uids fetch (pre ++ (u, mu) :: post)).1 store).1
      = some (update_meta now (fetch u) m0)
    ∧ (∀ x resx mx, (x, resx) ∈ (check_user_uids fetch (pre ++ (u, mu) :: post)).1 →
        assoc_find x store = some mx →
        assoc_find x (apply_uid_results now
          (check_user_uids fetch (pre ++ (u, mu) :: post)).1 store).1
          = some (update_meta now resx mx)) := by
  have hhd : check_user_uids fetch ((u, mu) :: post) =
      ([(u, fetch u)], [Note.tokenError (fetch u).summary]) := by
    simp [check_user_uids, hu]
  have h1 : (check_user_uids fetch (pre ++ (u, mu) :: post)).1
      = pre.map (fun p => (p.1, fetch p.1)) ++ [(u, fetch u)] := by
    rw [check_user_uids_fst_append fetch pre _ hpre, hhd]
  have h2 : (check_user_uids fetch (pre ++ (u, mu) :: post)).2.countP Note.isTok = 1 := by
    rw [check_user_uids_tok_count_append fetch pre _ hpre, hhd]
    simp [Note.isTok]
  refine ⟨h1, h2, ?_, ?_, ?_⟩
  · intro v hv hvu
    rw [h1]
    unfold apply_uid_results
    apply apply_fold_find_of_not_mem
    rw [List.map_append, map_fst_of_fetch]
    intro hmem
    rcases List.mem_append.1 hmem with h | h
    · exact hv h
    · rw [List.map_cons, List.map_nil, List.mem_singleton] at h
      exact hvu h
  · rw [h1]
    unfold apply_uid_results
    rw [List.foldl_append, List.foldl_cons, List.foldl_nil]
    exact apply_step_find_self now _ (u, fetch u) m0 (by
      rw [apply_fold_find_of_not_mem now _ (store, false) u (by
        rw [map_fst_of_fetch]
        exact hnp)]
      exact hs)
  · intro x resx mx hmem hfindx
    rw [h1] at hmem
    rw [h1]
    unfold apply_uid_results
    have hnodup : ((pre.map (fun p => (p.1, fetch p.1)) ++ [(u, fetch u)]).map
        Prod.fst).Nodup := by
      rw [List.map_append, map_fst_of_fetch]
      show (pre.map Prod.fst ++ [u]).Nodup
      refine List.Nodup.append hnd (List.nodup_singleton u) ?_
      intro a ha hb
      rw [List.mem_singleton] at hb
      subst hb
      exact hnp ha
    exact apply_fold_applied now _ (store, false) x resx mx hnodup hmem hfindx

/-- C5 (witness): five-identity style batch collapsed to pre = [U1],
failing identity U2, post = [U3]; the theorem is applied at this input,
exercising in particular the applied-to-store conclusion at both the
pre-prefix identity U1 and the failing identity U2. -/
theorem credential_short_circuit_witness :
    (∀ p ∈ [("U1", mLive)], (fetchC5 p.1).status ≠ "token_error")
    ∧ (fetchC5 "U2").status = "token_error"
    ∧ assoc_find "U2" [("U1", mLive), ("U2", mLive), ("U3", mLive)] = some mLive
    ∧ "U2" ∉ [("U1", mLive)].map Prod.fst
    ∧ ([("U1", mLive)].map Prod.fst).Nodup
    ∧ assoc_find "U3" (apply_uid_results "n"
        (check_user_uids fetchC5 ([("U1", mLive)] ++ ("U2", mLive) :: [("U3", mLive)])).1
        [("U1", mLive), ("U2", mLive), ("U3", mLive)]).1
      = assoc_find "U3" [("U1", mLive), ("U2", mLive), ("U3", mLive)]
    ∧ (check_user_uids fetchC5 ([("U1", mLive)] ++ ("U2", mLive) :: [("U3", mLive)])).1
      = [("U1", mLive)].map (fun p => (p.1, fetchC5 p.1)) ++ [("U2", fetchC5 "U2")]
    ∧ (check_user_uids fetchC5
        ([("U1", mLive)] ++ ("U2", mLive) :: [("U3", mLive)])).2.countP Note.isTok = 1
    ∧ assoc_find "U2" (apply_uid_results "n"
        (check_user_uids fetchC5 ([("U1", mLive)] ++ ("U2", mLive) :: [("U3", mLive)])).1
        [("U1", mLive), ("U2", mLive), ("U3", mLive)]).1
      = some (update_meta "n" (fetchC5 "U2") mLive)
    ∧ assoc_find "U1" (apply_uid_results "n"
        (check_user_uids fetchC5 ([("U1", mLive)] ++ ("U2", mLive) :: [("U3", mLive)])).1
        [("U1", mLive), ("U2", mLive), ("U3", mLive)]).1
      = some (update_meta "n" (fetchC5 "U1") mLive) := by
  have hmain := credential_short_circuit fetchC5 "n" [("U1", mLive)] [("U3", mLive)]
    "U2" mLive [("U1", mLive), ("U2", mLive), ("U3", mLive)] mLive
    (by decide) (by decide) (by decide) (by decide) (by decide)
  refine ⟨by decide, by decide, by decide, by decide, by decide,
    hmain.2.2.1 "U3" (by decide) (by decide), hmain.1, hmain.2.1, hmain.2.2.2.1,
    hmain.2.2.2.2 "U1" (fetchC5 "U1") mLive ?_ (by decide)⟩
  rw [hmain.1]
  decide

lemma apply_uid_results_single (now : String) (u : String) (m : UidMeta) (res : UidRes) :
    apply_uid_results now [(u, res)] [(u, m)] =
      (set_assoc u (fun _ => update_meta now res m) [(u, m)],
       !(m.status == res.status && m.summary == res.summary)) := by
  show apply_step now ([(u, m)], false) (u, res) = _
  unfold apply_step
  rw [assoc_find_singleton]
  show (set_assoc u (fun _ => update_meta now res m) [(u, m)],
    false || !(m.status == res.status && m.summary == res.summary)) = _
  rw [Bool.false_or]

/-- C6 (counterexample): an observation whose `(status, summary)` pair
differs from the stored pair but whose status is `token_error` produces
zero change notifications (the token-error branch at line 625 fires first
and breaks), so the claimed "notification iff the pair differs" is false. -/
theorem silent_no_change_counterexample :
    mLive.status ≠ (fetchTok "U").status
    ∧ (check_user_uids fetchTok [("U", mLive)]).2.countP Note.isChange = 0
    ∧ (check_user_uids fetchTok [("U", mLive)]).2.countP Note.isTok = 1 := by
  decide

/-- C6 (amended): for a re-observation whose status is not `token_error`,
a change notification is emitted iff the observed `(status, summary)`
pair differs from the stored pair; when both coincide, no notification is
produced, the merge updates `last_checked` to the observation time while
leaving status and summary at their stored values, and the `changed` flag
stays false so no persisted write is triggered.  (A `token_error`
observation instead emits a token-error notification and stops the
tenant's cycle.) -/
theorem silent_no_change_amended (fetch : String → UidRes) (now u : String) (m : UidMeta)
    (hnt : (fetch u).status ≠ "token_error") :
    ((∃ n ∈ (check_user_uids fetch [(u, m)]).2, Note.isChange n = true) ↔
      (m.status ≠ (fetch u).status ∨ m.summary ≠ (fetch u).summary))
    ∧ (m.status = (fetch u).status → m.summary = (fetch u).summary →
        (check_user_uids fetch [(u, m)]).2 = []
        ∧ (apply_uid_results now (check_user_uids fetch [(u, m)]).1 [(u, m)]).2 = false
        ∧ assoc_find u (apply_uid_results now (check_user_uids fetch [(u, m)]).1 [(u, m)]).1
            = some (update_meta now (fetch u) m)
        ∧ (update_meta now (fetch u) m).status = m.status
        ∧ (update_meta now (fetch u) m).summary = m.summary
        ∧ (update_meta now (fetch u) m).last_checked =
            some (if (fetch u).checked_at = "" then now else (fetch u).checked_at)) := by
  have hch : check_user_uids fetch [(u, m)] =
      ([(u, fetch u)],
       if m.status ≠ (fetch u).status ∨ m.summary ≠ (fetch u).summary then
         [Note.change u m.status (fetch u).status]
       else []) := by
    simp [check_user_uids, hnt]
  constructor
  · constructor
    · rintro ⟨n, hn, hcn⟩
      by_contra hno
      push_neg at hno
      have hcond : ¬ (m.status ≠ (fetch u).status ∨ m.summary ≠ (fetch u).summary) := by
        rintro (h | h)
        · exact h hno.1
        · exact h hno.2
      rw [hch] at hn
      have hn2 : n ∈ (if m.status ≠ (fetch u).status ∨ m.summary ≠ (fetch u).summary then
          [Note.change u m.status (fetch u).status] else []) := hn
      rw [if_neg hcond] at hn2
      cases hn2
    · intro hdiff
      refine ⟨Note.change u m.status (fetch u).status, ?_, rfl⟩
      rw [hch]
      show Note.change u m.status (fetch u).status ∈
        (if m.status ≠ (fetch u).status ∨ m.summary ≠ (fetch u).summary then
          [Note.change u m.status (fetch u).status] else [])
      rw [if_pos hdiff]
      exact List.mem_singleton_self _
  · intro hst hsm
    have hcond : ¬ (m.status ≠ (fetch u).status ∨ m.summary ≠ (fetch u).summary) := by
      rintro (h | h)
      · exact h hst
      · exact h hsm
    have hch2 : check_user_uids fetch [(u, m)] = ([(u, fetch u)], []) := by
      rw [hch, if_neg hcond]
    have hflag : (!(m.status == (fetch u).status && m.summary == (fetch u).summary)) = false := by
      rw [hst, hsm]
      simp
    refine ⟨by rw [hch2], ?_, ?_, ?_, ?_, ?_⟩
    · rw [hch2]
      show (apply_uid_results now [(u, fetch u)] [(u, m)]).2 = false
      rw [apply_uid_results_single]
      exact hflag
    · rw [hch2]
      show assoc_find u (apply_uid_results now [(u, fetch u)] [(u, m)]).1
        = some (update_meta now (fetch u) m)
      rw [apply_uid_results_single]
      show assoc_find u (set_assoc u (fun _ => update_meta now (fetch u) m) [(u, m)])
        = some (update_meta now (fetch u) m)
      rw [assoc_find_set_assoc_self, assoc_find_singleton]
      rfl
    · show (fetch u).status = m.status
      exact hst.symm
    · show (fetch u).summary = m.summary
      exact hsm.symm
    · rfl

/-- C6 (witness): instantiation of the amended theorem at an identical
re-observation (stored and observed pair both ("live", "ok")). -/
theorem silent_no_change_amended_witness :
    (fetchLive "U").status ≠ "token_error"
    ∧ ((check_user_uids fetchLive [("U", mLive)]).2 = []
      ∧ (apply_uid_results "n" (check_user_uids fetchLive [("U", mLive)]).1
          [("U", mLive)]).2 = false
      ∧ assoc_find "U" (apply_uid_results "n" (check_user_uids fetchLive [("U", mLive)]).1
          [("U", mLive)]).1 = some (update_meta "n" (fetchLive "U") mLive)
      ∧ (update_meta "n" (fetchLive "U") mLive).status = mLive.status
      ∧ (update_meta "n" (fetchLive "U") mLive).summary = mLive.summary
      ∧ (update_meta "n" (fetchLive "U") mLive).last_checked =
          some (if (fetchLive "U").checked_at = "" then "n" else (fetchLive "U").checked_at)) :=
  ⟨by decide,
   (silent_no_change_amended fetchLive "n" "U" mLive (by decide)).2 (by decide) (by decide)⟩

/-- C7: for a new item matching a delete keyword whose delete call
succeeds, the delete action is the first action of the chain and no hide
or like action runs on that item, while the block action runs exactly when
the author id is known and the text matches a block keyword. -/
theorem delete_short_circuit (net : ActionKind → Bool × String)
    (render : String → String → Option String) (auto : AutoCfg) (c : Comment)
    (hdel : comment_matches c.message auto.delete_keywords = true)
    (hok : (net ActionKind.delete).1 = true) :
    (run_actions net render auto c).head? =
        some ⟨ActionKind.delete, true, (net ActionKind.delete).2⟩
    ∧ (∀ a ∈ run_actions net render auto c,
        a.kind ≠ ActionKind.hide ∧ a.kind ≠ ActionKind.like)
    ∧ ((∃ a ∈ run_actions net render auto c, a.kind = ActionKind.block) ↔
        (idTruthy c.from_id && comment_matches c.message auto.block_keywords) = true) := by
  have hra : run_actions net render auto c =
      [⟨ActionKind.delete, true, (net ActionKind.delete).2⟩]
      ++ (if idTruthy c.from_id && comment_matches c.message auto.block_keywords then
            [⟨ActionKind.block, (net ActionKind.block).1, (net ActionKind.block).2⟩] else [])
      ++ (if auto.message_template != "" && idTruthy c.from_id then
            match render auto.message_template ((c.from_name).getD "Người dùng") with
            | none => [⟨ActionKind.reply, false, "template format error"⟩]
            | some _ =>
              [⟨ActionKind.reply, (net ActionKind.reply).1, (net ActionKind.reply).2⟩]
          else []) := by
    simp only [run_actions]
    rw [hdel, hok]
    simp
  refine ⟨?_, ?_, ?_⟩
  · rw [hra]
    rfl
  · intro a ha
    rw [hra] at ha
    rcases List.mem_append.1 ha with h | h
    · rcases List.mem_append.1 h with h1 | h2
      · rw [List.mem_singleton] at h1
        subst h1
        exact ⟨fun hh => ActionKind.noConfusion hh, fun hh => ActionKind.noConfusion hh⟩
      · by_cases hb : (idTruthy c.from_id && comment_matches c.message auto.block_keywords)
            = true
        · rw [if_pos hb, List.mem_singleton] at h2
          subst h2
          exact ⟨fun hh => ActionKind.noConfusion hh, fun hh => ActionKind.noConfusion hh⟩
        · rw [if_neg hb] at h2
          cases h2
    · by_cases ht : (auto.message_template != "" && idTruthy c.from_id) = true
      · rw [if_pos ht] at h
        cases hrr : render auto.message_template ((c.from_name).getD "Người dùng") with
        | none =>
          rw [hrr] at h
          have h' : a ∈ [(⟨ActionKind.reply, false, "template format error"⟩ : ActionResult)] :=
            h
          rw [List.mem_singleton] at h'
          subst h'
          exact ⟨fun hh => ActionKind.noConfusion hh, fun hh => ActionKind.noConfusion hh⟩
        | some msg =>
          rw [hrr] at h
          have h' : a ∈ [(⟨ActionKind.reply, (net ActionKind.reply).1,
              (net ActionKind.reply).2⟩ : ActionResult)] := h
          rw [List.mem_singleton] at h'
          subst h'
          exact ⟨fun hh => ActionKind.noConfusion hh, fun hh => ActionKind.noConfusion hh⟩
      · rw [if_neg ht] at h
        cases h
  · constructor
    · rintro ⟨a, ha, hk⟩
      rw [hra] at ha
      rcases List.mem_append.1 ha with h | h
      · rcases List.mem_append.1 h with h1 | h2
        · rw [List.mem_singleton] at h1
          subst h1
          exact ActionKind.noConfusion hk
        · by_cases hb : (idTruthy c.from_id && comment_matches c.message auto.block_keywords)
              = true
          · exact hb
          · rw [if_neg hb] at h2
            cases h2
      · by_cases ht : (auto.message_template != "" && idTruthy c.from_id) = true
        · rw [if_pos ht] at h
          cases hrr : render auto.message_template ((c.from_name).getD "Người dùng") with
          | none =>
            rw [hrr] at h
            have h' : a ∈ [(⟨ActionKind.reply, false,
                "template format error"⟩ : ActionResult)] := h
            rw [List.mem_singleton] at h'
            subst h'
            exact ActionKind.noConfusion hk
          | some msg =>
            rw [hrr] at h
            have h' : a ∈ [(⟨ActionKind.reply, (net ActionKind.reply).1,
                (net ActionKind.reply).2⟩ : ActionResult)] := h
            rw [List.mem_singleton] at h'
            subst h'
            exact ActionKind.noConfusion hk
        · rw [if_neg ht] at h
          cases h
    · intro hb
      refine ⟨⟨ActionKind.block, (net ActionKind.block).1, (net ActionKind.block).2⟩, ?_, rfl⟩
      rw [hra]
      apply List.mem_append.2
      apply Or.inl
      apply List.mem_append.2
      apply Or.inr
      rw [if_pos hb]
      exact List.mem_singleton_self _

/-- C7 (witness): a comment matching both the delete and hide (and block)
keywords with a successful delete call. -/
theorem delete_short_circuit_witness :
    comment_matches cmtBad.message autoDel.delete_keywords = true
    ∧ (netOkK ActionKind.delete).1 = true
    ∧ ((run_actions netOkK renderOk autoDel cmtBad).head? =
        some ⟨ActionKind.delete, true, (netOkK ActionKind.delete).2⟩
      ∧ (∀ a ∈ run_actions netOkK renderOk autoDel cmtBad,
          a.kind ≠ ActionKind.hide ∧ a.kind ≠ ActionKind.like)
      ∧ ((∃ a ∈ run_actions netOkK renderOk autoDel cmtBad, a.kind = ActionKind.block) ↔
          (idTruthy cmtBad.from_id &&
            comment_matches cmtBad.message autoDel.block_keywords) = true)) :=
  ⟨by decide, by decide,
   delete_short_circuit netOkK renderOk autoDel cmtBad (by decide) (by decide)⟩

/-- C8: `ensure_user` is idempotent — a second call returns the same
record and leaves the users map unchanged — and when the tenant already
exists its stored token, UID map and pages map are preserved, never reset. -/
theorem ensure_tenant_idempotent (users : List (String × UserRec)) (id : String) :
    ((ensure_user id (ensure_user id users).2).2 = (ensure_user id users).2
      ∧ (ensure_user id (ensure_user id users).2).1 = (ensure_user id users).1)
    ∧ (∀ u, assoc_find id users = some u →
        (∀ t, u.token = some t → (ensure_user id users).1.token = some t)
        ∧ (∀ l, u.uids = some l → (ensure_user id users).1.uids = some l)
        ∧ (∀ p, u.pages = some p → (ensure_user id users).1.pages = some p)) := by
  have hfound : ∀ (us : List (String × UserRec)) (u : UserRec),
      assoc_find id us = some u →
      ensure_user id us = (healed u, set_assoc id (fun _ => healed u) us) := by
    intro us u h
    unfold ensure_user healed
    rw [h]
  have hhh : ∀ u : UserRec, healed (healed u) = healed u := fun _ => rfl
  constructor
  · cases hf : assoc_find id users with
    | some u =>
      have h1 := hfound users u hf
      have h2 : assoc_find id (ensure_user id users).2 = some (healed u) := by
        rw [h1]
        show assoc_find id (set_assoc id (fun _ => healed u) users) = some (healed u)
        rw [assoc_find_set_assoc_self, hf]
        rfl
      have h3 := hfound (ensure_user id users).2 (healed u) h2
      constructor
      · rw [h3, hhh u]
        exact set_assoc_const_of_find _ h2
      · rw [h3, h1]
        exact hhh u
    | none =>
      have h1 : ensure_user id users = (healed {}, users ++ [(id, healed {})]) := by
        unfold ensure_user healed
        rw [hf]
        rfl
      have h2 : assoc_find id (ensure_user id users).2 = some (healed {}) := by
        rw [h1]
        show assoc_find id (users ++ [(id, healed {})]) = some (healed {})
        rw [assoc_find_append_of_none _ hf]
        exact assoc_find_singleton _ _
      have h3 := hfound (ensure_user id users).2 (healed {}) h2
      constructor
      · rw [h3, hhh {}]
        exact set_assoc_const_of_find _ h2
      · rw [h3, h1]
        exact hhh {}
  · intro u hf
    have h1 : (ensure_user id users).1 = healed u := by
      rw [hfound users u hf]
    refine ⟨?_, ?_, ?_⟩
    · intro t ht
      rw [h1]
      show some (u.token.getD "") = some t
      rw [ht]
      rfl
    · intro l hl
      rw [h1]
      show some (u.uids.getD []) = some l
      rw [hl]
      rfl
    · intro p hp
      rw [h1]
      show some (u.pages.getD []) = some p
      rw [hp]
      rfl

/-- C8 (witness): instantiation at a stored tenant with an existing token
and UID map and an absent pages key. -/
theorem ensure_tenant_idempotent_witness :
    ((ensure_user "1" (ensure_user "1" usersW).2).2 = (ensure_user "1" usersW).2
      ∧ (ensure_user "1" (ensure_user "1" usersW).2).1 = (ensure_user "1" usersW).1)
    ∧ assoc_find "1" usersW =
        some ({ token := some "tok", uids := some [("U1", mLive)], pages := none } : UserRec)
    ∧ (ensure_user "1" usersW).1.token = some "tok"
    ∧ (ensure_user "1" usersW).1.uids = some [("U1", mLive)] :=
  ⟨(ensure_tenant_idempotent usersW "1").1, by decide,
   ((ensure_tenant_idempotent usersW "1").2
     ({ token := some "tok", uids := some [("U1", mLive)], pages := none } : UserRec)
     (by decide)).1 "tok" (by decide),
   ((ensure_tenant_idempotent usersW "1").2
     ({ token := some "tok", uids := some [("U1", mLive)], pages := none } : UserRec)
     (by decide)).2.1 [("U1", mLive)] (by decide)⟩

/-- C9: merging batch UID-check results drops any result whose UID is no
longer stored — the merge never re-creates a removed identity. -/
theorem merge_skips_removed_identity (now : String) (results : List (String × UidRes))
    (store : List (String × UidMeta)) (v : String)
    (h : assoc_find v store = none) :
    assoc_find v (apply_uid_results now results store).1 = none := by
  unfold apply_uid_results
  exact apply_fold_find_none now results (store, false) v h

/-- C9 (witness): a result for the removed UID Z is dropped. -/
theorem merge_skips_removed_identity_witness :
    assoc_find "Z" storeW = none
    ∧ assoc_find "Z" (apply_uid_results "n" [("Z", resLive)] storeW).1 = none :=
  ⟨by decide, merge_skips_removed_identity "n" [("Z", resLive)] storeW "Z" (by decide)⟩

/-- C10: merging a page-poll cursor update re-creates the post entry when
it is absent (setdefault), producing an entry that contains only the
cursor fields — so unwatching a post concurrently with a poll tick does
not keep it removed — while a page that disappeared in the interim is
skipped entirely. -/
theorem merge_recreates_unwatched_post (page_id post_id : String) (p : UpdatePayload)
    (pages : List (String × Page)) (pg : Page)
    (h1 : assoc_find page_id pages = some pg)
    (h2 : assoc_find post_id pg.posts = none) :
    (∃ pg', assoc_find page_id (merge_post_update page_id post_id p pages) = some pg'
        ∧ pg'.posts = pg.posts ++ [(post_id, apply_payload {} p)]
        ∧ assoc_find post_id pg'.posts = some (apply_payload {} p))
    ∧ (∀ ps : List (String × Page), assoc_find page_id ps = none →
        merge_post_update page_id post_id p ps = ps) := by
  constructor
  · have hm : merge_post_update page_id post_id p pages =
        set_assoc page_id
          (fun _ => { pg with posts := pg.posts ++ [(post_id, apply_payload {} p)] })
          pages := by
      unfold merge_post_update
      rw [h1]
      show (match assoc_find post_id pg.posts with
        | some m =>
          set_assoc page_id
            (fun _ => { pg with
              posts := set_assoc post_id (fun _ => apply_payload m p) pg.posts })
            pages
        | none =>
          set_assoc page_id
            (fun _ => { pg with posts := pg.posts ++ [(post_id, apply_payload {} p)] })
            pages) =
        set_assoc page_id
          (fun _ => { pg with posts := pg.posts ++ [(post_id, apply_payload {} p)] })
          pages
      rw [h2]
    refine ⟨{ pg with posts := pg.posts ++ [(post_id, apply_payload {} p)] }, ?_, rfl, ?_⟩
    · rw [hm, assoc_find_set_assoc_self, h1]
      rfl
    · show assoc_find post_id (pg.posts ++ [(post_id, apply_payload {} p)]) = _
      rw [assoc_find_append_of_none _ h2]
      exact assoc_find_singleton _ _
  · intro ps hps
    unfold merge_post_update
    rw [hps]

/-- C10 (witness): merging payloadW for the unwatched post Q of page P
re-creates the post entry with only the cursor fields. -/
theorem merge_recreates_unwatched_post_witness :
    assoc_find "P" pagesW = some pageW
    ∧ assoc_find "Q" pageW.posts = none
    ∧ ((∃ pg', assoc_find "P" (merge_post_update "P" "Q" payloadW pagesW) = some pg'
        ∧ pg'.posts = pageW.posts ++ [("Q", apply_payload {} payloadW)]
        ∧ assoc_find "Q" pg'.posts = some (apply_payload {} payloadW))
      ∧ (∀ ps : List (String × Page), assoc_find "P" ps = none →
          merge_post_update "P" "Q" payloadW ps = ps)) :=
  ⟨by decide, by decide,
   merge_recreates_unwatched_post "P" "Q" payloadW pagesW pageW (by decide) (by decide)⟩

end TelegramBot
